import Mathlib

/-!
# front-paneld (meta-yosemite): polling state machines of the front-panel daemon

Shallow embedding of the handler threads of `front-paneld.c`.  Every handler is an
unbounded `while (1)` loop; one pass through the loop body is embedded as a function
from the outcomes of the platform (PAL) calls made in that pass to the list of
external calls performed, in program order (and, where the thread keeps local state
across passes, the updated state).

Values of type `uint8_t` are natural numbers reduced `% 256` when they are stored.
-/

namespace FrontPaneld

/-! ## Constants -/

/-- `#define BTN_MAX_SAMPLES 200` -/
def BTN_MAX_SAMPLES : Nat := 200

/-- `#define BTN_POWER_OFF 40` -/
def BTN_POWER_OFF : Nat := 40

/-- `#define MAX_NUM_SLOTS 4` -/
def MAX_NUM_SLOTS : Nat := 4

/-- `#define HB_TIMESTAMP_COUNT (60 * 60)` -/
def HB_TIMESTAMP_COUNT : Nat := 60 * 60

/-- Enumeration constants of `<openbmc/pal.h>` used by the daemon.  The header is not part
of the sources at hand, so the handlers take the constants as a parameter. -/
structure PalConsts where
  HAND_SW_BMC : Nat
  SERVER_POWER_OFF : Nat
  SERVER_POWER_ON : Nat
  SERVER_GRACEFUL_SHUTDOWN : Nat
  deriving DecidableEq

/-- The values the Yosemite platform header gives the constants
(`HAND_SW_SERVER1 = 1 .. HAND_SW_BMC = 5`, `SERVER_POWER_OFF = 0`, `SERVER_POWER_ON = 1`,
`SERVER_GRACEFUL_SHUTDOWN = 3`); used for concrete instances only. -/
def yosemite : PalConsts :=
  { HAND_SW_BMC := 5, SERVER_POWER_OFF := 0, SERVER_POWER_ON := 1, SERVER_GRACEFUL_SHUTDOWN := 3 }

/-! ## Platform calls and their outcomes -/

/-- Outcome of a PAL getter `int f(.., uint8_t *out)`: the return code (`0` is success) and
the value found in `*out` when the call has returned. -/
structure Rd where
  ret : Int
  val : Nat
  deriving DecidableEq

/-- A successful read of `v`. -/
def Rd.ok (v : Nat) : Rd := { ret := 0, val := v }

/-- The byte a `uint8_t` variable holds after the getter stored through its address. -/
def Rd.byte (r : Rd) : Nat := r.val % 256

/-- Outcome of `pal_get_key_value(key, buf)`: return code and the string left in `buf`. -/
structure KvRd where
  ret : Int
  val : String
  deriving DecidableEq

/-- Syslog priorities used by the daemon. -/
inductive Prio
  | warning
  | crit
  | info
  deriving DecidableEq

/-- The messages the daemon logs, with their `%d` / `%s` arguments. -/
inductive Msg
  | debug_card_extraction
  | debug_card_insertion
  | rst_pressed
  | rst_released
  | rst_fru (pos : Nat)
  | rst_stuck
  | pwr_pressed
  | pwr_released
  | pwr_stuck
  | pwr_long_press (pos : Nat)
  | pwr_press (pos : Nat)
  | sled_off (t : Int)
  | sled_on (t : Int)
  deriving DecidableEq

/-- Keys of the persistent key/value store the daemon touches;
`identify_slot n` is the result of `sprintf(tstr, "identify_slot%d", slot)`. -/
inductive Key
  | timestamp_sled
  | identify_sled
  | identify_slot (n : Nat)
  deriving DecidableEq

/-- One external call made by a handler. -/
inductive Ev
  | is_debug_card_prsnt
  | switch_uart_mux (pos : Nat)
  | switch_usb_mux (pos : Nat)
  | get_hand_sw
  | is_server_prsnt (slot : Nat)
  | post_enable (pos : Nat)
  | post_get_last (pos : Nat)
  | post_handle (pos lpc : Nat)
  | get_rst_btn
  | set_rst_btn (pos val : Nat)
  | get_pwr_btn
  | get_server_power (pos : Nat)
  | set_server_power (pos cmd : Nat)
  | set_hb_led (v : Nat)
  | set_led (slot v : Nat)
  | set_id_led (slot v : Nat)
  | get_key_value (k : Key)
  | set_key_value (k : Key) (v : Int)
  | is_bmc_por
  | clock_realtime
  | clock_monotonic
  | syslog (p : Prio) (m : Msg)
  | msleep (ms : Nat)
  | sleep (s : Nat)
  deriving DecidableEq

/-- C logical negation `!x`. -/
def lnot (x : Int) : Nat := if x = 0 then 1 else 0

/-- C inequality test `a != b` as the integer it yields. -/
def c_ne (a b : Nat) : Nat := if a = b then 0 else 1

/-! ## Debug card thread (`debug_card_handler`) -/

/-- The locals of `debug_card_handler` that live across passes of its loop. -/
structure DcState where
  prev : Int
  prsnt : Nat
  pos : Nat
  prev_pos : Nat
  lpc : Nat
  deriving DecidableEq

/-- The locals at thread start: `prev = -1`, `prev_pos = (uint8_t) -1`; `prsnt`, `pos` and
`lpc` are not initialised by the program and hold whatever the stack holds. -/
def debug_card_init (prsnt pos lpc : Nat) : DcState :=
  { prev := -1, prsnt := prsnt % 256, pos := pos % 256, prev_pos := 255, lpc := lpc % 256 }

/-- Outcomes of the PAL calls of one pass of `debug_card_handler`. -/
structure DcIn where
  card : Rd
  uart_bmc : Int
  hand_sw : Rd
  uart : Int
  server : Rd
  post_enable : Int
  post_last : Rd
  post_handle : Int
  deriving DecidableEq

/-- Label `debug_card_out`: `if (prsnt) msleep(500); else sleep(1);`. -/
def debug_card_out (s : DcState) (t : List Ev) : DcState × List Ev :=
  (s, t ++ [if s.prsnt ≠ 0 then Ev.msleep 500 else Ev.sleep 1])

/-- Label `debug_card_done`: `prev = curr; prev_pos = pos;`, then `debug_card_out`. -/
def debug_card_done (s : DcState) (curr : Int) (t : List Ev) : DcState × List Ev :=
  debug_card_out { s with prev := curr, prev_pos := s.pos } t

/-- Label `display_post`: fetch the last POST code and hand it to the display. -/
def display_post (e : DcIn) (s : DcState) (curr : Int) (t : List Ev) : DcState × List Ev :=
  let s := { s with lpc := e.post_last.byte }
  if e.post_last.ret ≠ 0 then
    debug_card_out s (t ++ [Ev.post_get_last s.pos])
  else if e.post_handle ≠ 0 then
    debug_card_out s (t ++ [Ev.post_get_last s.pos, Ev.post_handle s.pos s.lpc])
  else
    debug_card_done s curr (t ++ [Ev.post_get_last s.pos, Ev.post_handle s.pos s.lpc])

/-- The condition of `if (pos == prev_pos && pos != HAND_SW_BMC & !prev)`: `!=` binds
tighter than `&`, which binds tighter than `&&`. -/
def skip_cond (K : PalConsts) (pos prev_pos : Nat) (prev : Int) : Bool :=
  pos = prev_pos && (c_ne pos K.HAND_SW_BMC &&& lnot prev) != 0

/-- The block `if (curr) { ... }` of `debug_card_handler`, entered with `curr != 0`. -/
def debug_card_present (K : PalConsts) (e : DcIn) (s : DcState) (curr : Int) (t : List Ev) :
    DcState × List Ev :=
  let s := { s with pos := e.hand_sw.byte }
  let t := t ++ [Ev.get_hand_sw]
  if e.hand_sw.ret ≠ 0 then
    debug_card_out s t
  else if skip_cond K s.pos s.prev_pos s.prev then
    display_post e s curr t
  else
    let t := t ++ [Ev.switch_uart_mux s.pos]
    if e.uart ≠ 0 then
      debug_card_out s t
    else if s.pos = K.HAND_SW_BMC then
      debug_card_done s curr t
    else
      let s := { s with prsnt := e.server.byte }
      let t := t ++ [Ev.is_server_prsnt s.pos]
      if e.server.ret ≠ 0 ∨ s.prsnt = 0 then
        debug_card_done s curr t
      else
        let t := t ++ [Ev.post_enable s.pos]
        if e.post_enable ≠ 0 then
          debug_card_out s t
        else
          display_post e s curr t

/-- One pass through the body of the `while (1)` loop of `debug_card_handler`. -/
def debug_card_cycle (K : PalConsts) (s : DcState) (e : DcIn) : DcState × List Ev :=
  let s := { s with prsnt := e.card.byte }
  let t := [Ev.is_debug_card_prsnt]
  if e.card.ret ≠ 0 then
    debug_card_out s t
  else
    let curr : Int := s.prsnt
    if curr ≠ s.prev then
      if curr = 0 then
        let t := t ++ [Ev.syslog Prio.warning Msg.debug_card_extraction,
                       Ev.switch_uart_mux (K.HAND_SW_BMC % 256)]
        if e.uart_bmc ≠ 0 then
          debug_card_out s t
        else
          debug_card_done s curr t
      else
        debug_card_present K e s curr (t ++ [Ev.syslog Prio.warning Msg.debug_card_insertion])
    else if curr ≠ 0 then
      debug_card_present K e s curr t
    else
      debug_card_done s curr t

/-- The thread run over a list of passes: the final locals and the trace of every pass. -/
def debug_card_run (K : PalConsts) : DcState → List DcIn → DcState × List (List Ev)
  | s, [] => (s, [])
  | s, e :: es =>
    let r := debug_card_cycle K s e
    let rs := debug_card_run K r.1 es
    (rs.1, r.2 :: rs.2)

/-! ## Hand switch thread (`usb_handler`) -/

/-- Outcomes of the PAL calls of one pass of `usb_handler`. -/
structure UsbIn where
  hand_sw : Rd
  usb_mux : Int
  deriving DecidableEq

/-- One pass through the loop body of `usb_handler`, from the value of `prev` at entry:
the value of `prev` at exit and the calls made. -/
def usb_cycle (prev : Int) (e : UsbIn) : Int × List Ev :=
  if e.hand_sw.ret ≠ 0 then
    (prev, [Ev.get_hand_sw, Ev.sleep 1])
  else
    let pos := e.hand_sw.byte
    let curr : Int := pos
    if curr = prev then
      (prev, [Ev.get_hand_sw, Ev.sleep 1])
    else if e.usb_mux ≠ 0 then
      (prev, [Ev.get_hand_sw, Ev.switch_usb_mux pos, Ev.sleep 1])
    else
      (curr, [Ev.get_hand_sw, Ev.switch_usb_mux pos, Ev.sleep 1])

/-- The value of `prev` after the passes `es`, starting from `prev`. -/
def usb_prev (prev : Int) (es : List UsbIn) : Int :=
  es.foldl (fun p e => (usb_cycle p e).1) prev

/-- The value `prev` has at thread start (`int prev = -1`). -/
def usb_init : Int := -1

/-! ## Reset button thread (`rst_btn_handler`) -/

/-- Outcomes of the PAL calls of one pass of `rst_btn_handler`:
`poll i` is the outcome of the read made by the release loop when its counter is `i`. -/
structure RstBtnIn where
  hand_sw : Rd
  btn : Rd
  set_low : Int
  poll : Nat → Rd
  set_high : Int

/-- The release loop `for (i = 0; i < BTN_MAX_SAMPLES; i++)` of `rst_btn_handler` followed by
the `// handle error case` test, entered with counter `i` and `left = BTN_MAX_SAMPLES - i`
passes to go.  A sample with `ret || btn` sleeps 100 ms and continues; any other logs the
release, drives the reset line of `pos` to 1 and leaves for `rst_btn_out`. -/
def rst_btn_wait (pos : Nat) (poll : Nat → Rd) : Nat → Nat → List Ev
  | 0, i => if i = BTN_MAX_SAMPLES then [Ev.syslog Prio.warning Msg.rst_stuck] else []
  | left + 1, i =>
    if (poll i).ret ≠ 0 ∨ (poll i).byte ≠ 0 then
      Ev.get_rst_btn :: Ev.msleep 100 :: rst_btn_wait pos poll left (i + 1)
    else
      [Ev.get_rst_btn, Ev.syslog Prio.warning Msg.rst_released,
       Ev.syslog Prio.crit (Msg.rst_fru pos), Ev.set_rst_btn pos 1]

/-- One pass through the body of the `while (1)` loop of `rst_btn_handler`. -/
def rst_btn_cycle (K : PalConsts) (e : RstBtnIn) : List Ev :=
  if e.hand_sw.ret ≠ 0 ∨ e.hand_sw.byte = K.HAND_SW_BMC then
    [Ev.get_hand_sw, Ev.sleep 1]
  else
    let pos := e.hand_sw.byte
    if e.btn.ret ≠ 0 ∨ e.btn.byte = 0 then
      [Ev.get_hand_sw, Ev.get_rst_btn, Ev.msleep 100]
    else if e.set_low ≠ 0 then
      [Ev.get_hand_sw, Ev.get_rst_btn, Ev.syslog Prio.warning Msg.rst_pressed,
       Ev.set_rst_btn pos 0, Ev.msleep 100]
    else
      [Ev.get_hand_sw, Ev.get_rst_btn, Ev.syslog Prio.warning Msg.rst_pressed,
       Ev.set_rst_btn pos 0] ++ rst_btn_wait pos e.poll BTN_MAX_SAMPLES 0 ++ [Ev.msleep 100]

/-- The reset-line writes (`pal_set_rst_btn` calls) of a trace. -/
def rst_writes (t : List Ev) : List Ev :=
  t.filter fun ev => match ev with
    | Ev.set_rst_btn _ _ => true
    | _ => false

/-! ## Power button thread (`pwr_btn_handler`) -/

/-- Outcomes of the PAL calls of one pass of `pwr_btn_handler`:
`poll i` is the outcome of the read made by the release loop when its counter is `i`. -/
structure PwrBtnIn where
  hand_sw : Rd
  btn : Rd
  poll : Nat → Rd
  power : Rd
  set_power : Int

/-- The release loop `for (i = 0; i < BTN_MAX_SAMPLES; i++)` of `pwr_btn_handler`, entered
with counter `i` and `left = BTN_MAX_SAMPLES - i` passes to go.  A sample with `ret || btn`
sleeps 100 ms and continues; any other logs the release and breaks.  Returns the value of
`i` after the loop and the calls made. -/
def pwr_btn_wait (poll : Nat → Rd) : Nat → Nat → Nat × List Ev
  | 0, i => (i, [])
  | left + 1, i =>
    if (poll i).ret ≠ 0 ∨ (poll i).byte ≠ 0 then
      let r := pwr_btn_wait poll left (i + 1)
      (r.1, Ev.get_pwr_btn :: Ev.msleep 100 :: r.2)
    else
      (i, [Ev.get_pwr_btn, Ev.syslog Prio.warning Msg.pwr_released])

/-- The part of a pass of `pwr_btn_handler` after the release loop has ended with counter `i`
(from `// handle error case` to the label `pwr_btn_out`, its `msleep(100)` excluded). -/
def pwr_btn_act (K : PalConsts) (e : PwrBtnIn) (pos i : Nat) : List Ev :=
  if i = BTN_MAX_SAMPLES then
    [Ev.syslog Prio.warning Msg.pwr_stuck]
  else if e.power.ret ≠ 0 then
    [Ev.get_server_power pos]
  else
    let power := e.power.byte
    let cmd := lnot power
    if i ≥ BTN_POWER_OFF then
      [Ev.get_server_power pos, Ev.syslog Prio.crit (Msg.pwr_long_press pos),
       Ev.set_server_power pos cmd]
    else
      let cmd := if power = K.SERVER_POWER_ON then K.SERVER_GRACEFUL_SHUTDOWN % 256 else cmd
      [Ev.get_server_power pos, Ev.syslog Prio.crit (Msg.pwr_press pos),
       Ev.set_server_power pos cmd]

/-- One pass through the body of the `while (1)` loop of `pwr_btn_handler`: the external
calls it makes, in order. -/
def pwr_btn_cycle (K : PalConsts) (e : PwrBtnIn) : List Ev :=
  if e.hand_sw.ret ≠ 0 ∨ e.hand_sw.byte = K.HAND_SW_BMC then
    [Ev.get_hand_sw, Ev.sleep 1]
  else
    let pos := e.hand_sw.byte
    if e.btn.ret ≠ 0 ∨ e.btn.byte = 0 then
      [Ev.get_hand_sw, Ev.get_pwr_btn, Ev.msleep 100]
    else
      let w := pwr_btn_wait e.poll BTN_MAX_SAMPLES 0
      [Ev.get_hand_sw, Ev.get_pwr_btn, Ev.syslog Prio.warning Msg.pwr_pressed]
        ++ w.2 ++ pwr_btn_act K e pos w.1 ++ [Ev.msleep 100]

/-- The power commands (`pal_set_server_power` calls) of a trace. -/
def power_cmds (t : List Ev) : List Ev :=
  t.filter fun ev => match ev with
    | Ev.set_server_power _ _ => true
    | _ => false

/-- A button is read released by a release-loop sample: the read succeeds with value 0
(the negation of the loop's `ret || btn`). -/
def released (r : Rd) : Prop := r.ret = 0 ∧ r.byte = 0

instance (r : Rd) : Decidable (released r) := by unfold released; infer_instance

/-- The calls of `n` passes of a release loop that all found the button not released:
the read `ev` followed by `msleep(100)`, `n` times. -/
def held_trace (ev : Ev) : Nat → List Ev
  | 0 => []
  | n + 1 => ev :: Ev.msleep 100 :: held_trace ev n

/-- What the theorems on the power button assume of the power constants of `pal.h`: the
states Off and On are each other's logical negation (so that `!power` toggles between
them), and the graceful-shutdown command is a byte distinct from both. -/
def PalConsts.power_ok (K : PalConsts) : Prop :=
  K.SERVER_POWER_ON = lnot K.SERVER_POWER_OFF ∧ K.SERVER_POWER_OFF = lnot K.SERVER_POWER_ON ∧
  K.SERVER_GRACEFUL_SHUTDOWN < 256 ∧ K.SERVER_GRACEFUL_SHUTDOWN ≠ K.SERVER_POWER_ON ∧
  K.SERVER_GRACEFUL_SHUTDOWN ≠ K.SERVER_POWER_OFF

instance (K : PalConsts) : Decidable K.power_ok := by unfold PalConsts.power_ok; infer_instance

/-! ## Heartbeat thread (`hb_handler`) -/

/-- The locals of `hb_handler` that live across passes of its loop. -/
structure HbState where
  count : Int
  time_init : Nat
  time_sled_off : Int
  deriving DecidableEq

/-- What one pass of the loop of `hb_handler` reads from outside, when it reads it:
`now` is `ts.tv_sec` of the `CLOCK_REALTIME` read of the validation block, `por` the result of
`pal_is_bmc_por()`, `mono` is `mts.tv_sec` of the `CLOCK_MONOTONIC` read, and `now_store`
is `ts.tv_sec` of the `CLOCK_REALTIME` read of the store block. -/
structure HbIn where
  now : Int
  por : Int
  mono : Int
  now_store : Int
  deriving DecidableEq

/-- The locals of `hb_handler` when its loop is entered: `T` is the value `strtoul` parses
from what key `timestamp_sled` holds. -/
def hb_init (T : Int) : HbState :=
  { count := 0, time_init := 0, time_sled_off := T }

/-- The calls of `hb_handler` before its loop; `por` is the result of the first
`pal_is_bmc_por()`. -/
def hb_start (T : Int) (por : Int) : List Ev :=
  [Ev.get_key_value Key.timestamp_sled, Ev.is_bmc_por] ++
    if por ≠ 0 then [Ev.syslog Prio.crit (Msg.sled_off T)] else []

/-- The number `sprintf(tstr, "%d", x)` prints for a `time_t` argument `x`: `%d` takes an
`int`, so it prints the low 32 bits of `x` as a signed number, which is `x` itself when
`-2^31 ≤ x < 2^31`. -/
def fmt_d (x : Int) : Int := (x + 2147483648) % 4294967296 - 2147483648

/-- The block `if (count++ == HB_TIMESTAMP_COUNT) { ... count = 0; }`; the value stored
under `timestamp_sled` is what `sprintf(tstr, "%d", ts.tv_sec)` prints. -/
def hb_store (s : HbState) (e : HbIn) (t : List Ev) : HbState × List Ev :=
  if s.count = HB_TIMESTAMP_COUNT then
    ({ s with count := 0 },
     t ++ [Ev.clock_realtime, Ev.set_key_value Key.timestamp_sled (fmt_d e.now_store)])
  else
    ({ s with count := s.count + 1 }, t)

/-- One pass through the body of the `while (1)` loop of `hb_handler`. -/
def hb_cycle (s : HbState) (e : HbIn) : HbState × List Ev :=
  let t := [Ev.set_hb_led 1, Ev.msleep 500, Ev.set_hb_led 0, Ev.msleep 500]
  if s.time_init = 0 then
    let t := t ++ [Ev.clock_realtime]
    if e.now < s.time_sled_off then
      (s, t)
    else
      let s := { s with time_init := 1 }
      if e.por ≠ 0 then
        hb_store s e (t ++ [Ev.is_bmc_por, Ev.clock_monotonic,
                            Ev.syslog Prio.crit (Msg.sled_on (e.now - e.mono))])
      else
        hb_store s e (t ++ [Ev.is_bmc_por])
  else
    hb_store s e t

/-- The locals of `hb_handler` at the start of pass `n` of its loop (passes count from 0),
for the persisted timestamp `T` and the outside readings `ins`. -/
def hb_state (T : Int) (ins : Nat → HbIn) : Nat → HbState
  | 0 => hb_init T
  | n + 1 => (hb_cycle (hb_state T ins n) (ins n)).1

/-- The calls made by pass `n` of the loop of `hb_handler`. -/
def hb_trace (T : Int) (ins : Nat → HbIn) (n : Nat) : List Ev :=
  (hb_cycle (hb_state T ins n) (ins n)).2

/-- The "SLED Powered ON" log calls of a trace. -/
def sled_on_logs (t : List Ev) : List Ev :=
  t.filter fun ev => match ev with
    | Ev.syslog _ (Msg.sled_on _) => true
    | _ => false

/-- How many "SLED Powered ON" events the first `N` passes of the loop log. -/
def sled_on_count (T : Int) (ins : Nat → HbIn) : Nat → Nat
  | 0 => 0
  | N + 1 => sled_on_count T ins N + (sled_on_logs (hb_trace T ins N)).length

/-- The writes to the key/value store of a trace. -/
def kv_writes (t : List Ev) : List Ev :=
  t.filter fun ev => match ev with
    | Ev.set_key_value _ _ => true
    | _ => false

/-! ## Slot LED thread (`led_handler`) -/

/-- Outcomes of the PAL calls of one pass of the loop of `led_handler`. -/
structure LedIn where
  identify_sled : KvRd
  identify_slot : KvRd
  power : Rd
  hand_sw : Rd
  set_led_steady : Int
  set_led_on : Int
  set_led_off : Int
  deriving DecidableEq

/-- `uint8_t slot = (*(int*) num) + 1;` -/
def led_slot (num : Nat) : Nat := (num + 1) % 256

/-- The code of `led_handler` before its loop: `true` when the thread enters the loop. -/
def led_handler_entry (slot : Nat) (prsnt : Rd) : Bool × List Ev :=
  if prsnt.ret ≠ 0 ∨ prsnt.byte = 0 then
    (false, [Ev.is_server_prsnt slot, Ev.set_led slot 0])
  else
    (true, [Ev.is_server_prsnt slot])

/-- The test `ret == 0 && !strcmp(identify, "on")`. -/
def kv_on (r : KvRd) : Bool := r.ret = 0 && r.val = "on"

/-- The part of a pass of `led_handler` from `// Get power status for this slot` on. -/
def led_power (K : PalConsts) (slot : Nat) (e : LedIn) : List Ev :=
  if e.power.ret ≠ 0 then
    [Ev.get_server_power slot, Ev.sleep 1]
  else if e.hand_sw.ret ≠ 0 then
    [Ev.get_server_power slot, Ev.get_hand_sw, Ev.sleep 1]
  else
    let power := e.power.byte
    let pos := e.hand_sw.byte
    let t := [Ev.get_server_power slot, Ev.get_hand_sw]
    if pos = K.HAND_SW_BMC then
      t ++ [Ev.set_led slot 0, Ev.msleep 500, Ev.set_led slot 1, Ev.msleep 500]
    else
      let led_blink : Nat := if pos = slot then 1 else 0
      if led_blink = 0 then
        t ++ [Ev.set_led slot power, Ev.msleep 100]
      else
        let led_on_time := if power ≠ 0 then 900 else 100
        let led_off_time := if power ≠ 0 then 100 else 900
        if e.set_led_on ≠ 0 then
          t ++ [Ev.set_led slot 1, Ev.msleep 100]
        else if e.set_led_off ≠ 0 then
          t ++ [Ev.set_led slot 1, Ev.msleep led_on_time, Ev.set_led slot 0, Ev.msleep 100]
        else
          t ++ [Ev.set_led slot 1, Ev.msleep led_on_time, Ev.set_led slot 0,
                Ev.msleep led_off_time, Ev.msleep 100]

/-- One pass through the body of the `while (1)` loop of `led_handler` for `slot`. -/
def led_cycle (K : PalConsts) (slot : Nat) (e : LedIn) : List Ev :=
  let ident := kv_on e.identify_sled
  let t := [Ev.get_key_value Key.identify_sled]
  let t := if ident then t else t ++ [Ev.get_key_value (Key.identify_slot slot)]
  let ident := if ident then ident else kv_on e.identify_slot
  if ident then
    t ++ [Ev.set_led slot 0, Ev.set_id_led slot 0, Ev.msleep 200, Ev.set_id_led slot 1,
          Ev.msleep 200]
  else
    t ++ [Ev.set_id_led slot 1] ++ led_power K slot e

/-- The USB mux switches (`pal_switch_usb_mux` calls) of a trace. -/
def usb_switches (t : List Ev) : List Ev :=
  t.filter fun ev => match ev with
    | Ev.switch_usb_mux _ => true
    | _ => false

/-- The UART mux switches (`pal_switch_uart_mux` calls) of a trace. -/
def uart_switches (t : List Ev) : List Ev :=
  t.filter fun ev => match ev with
    | Ev.switch_uart_mux _ => true
    | _ => false

/-- The power/status LED writes (`pal_set_led` calls) of a trace. -/
def led_writes (t : List Ev) : List Ev :=
  t.filter fun ev => match ev with
    | Ev.set_led _ _ => true
    | _ => false

/-- The hand-switch reads (`pal_get_hand_sw` calls) of a trace. -/
def hand_sw_reads (t : List Ev) : List Ev :=
  t.filter fun ev => match ev with
    | Ev.get_hand_sw => true
    | _ => false

/-! ## Concrete passes -/

/-- A power-button pass on slot 1: pressed, held for `n` release-loop samples, then released;
the power state read is `power`. -/
def pwr_press_for (n power : Nat) : PwrBtnIn :=
  { hand_sw := Rd.ok 1, btn := Rd.ok 1, poll := fun k => if k < n then Rd.ok 1 else Rd.ok 0,
    power := Rd.ok power, set_power := 0 }

/-- A power-button pass on slot 1 whose button is never read released. -/
def pwr_press_stuck : PwrBtnIn :=
  { hand_sw := Rd.ok 1, btn := Rd.ok 1, poll := fun _ => Rd.ok 1, power := Rd.ok 1,
    set_power := 0 }

/-- A reset-button pass on slot 2: pressed, held for `n` release-loop samples, then released. -/
def rst_press_for (n : Nat) : RstBtnIn :=
  { hand_sw := Rd.ok 2, btn := Rd.ok 1, set_low := 0,
    poll := fun k => if k < n then Rd.ok 1 else Rd.ok 0, set_high := 0 }

/-- A hand-switch pass reading position `pos` whose USB mux switch returns `ret`. -/
def usb_pass (pos : Nat) (ret : Int) : UsbIn :=
  { hand_sw := Rd.ok pos, usb_mux := ret }

/-- A debug-card pass with the card present, the hand switch on `pos`, the selected server
present and every call succeeding (last POST code `0x3c`). -/
def dc_present (pos : Nat) : DcIn :=
  { card := Rd.ok 1, uart_bmc := 0, hand_sw := Rd.ok pos, uart := 0, server := Rd.ok 1,
    post_enable := 0, post_last := Rd.ok 60, post_handle := 0 }

/-- A debug-card pass with the card absent and every call succeeding. -/
def dc_absent : DcIn :=
  { card := Rd.ok 0, uart_bmc := 0, hand_sw := Rd.ok 1, uart := 0, server := Rd.ok 1,
    post_enable := 0, post_last := Rd.ok 60, post_handle := 0 }

/-- Heartbeat readings: the wall clock shows `1000 + n` at pass `n` (it reaches the persisted
`1003` at pass 3), uptime `7 + n` seconds, on a boot whose `pal_is_bmc_por()` is `por`. -/
def hb_readings (por : Int) (n : Nat) : HbIn :=
  { now := 1000 + n, por := por, mono := 7 + n, now_store := 1000 + n }

/-- A LED pass with the chassis identify key reading `sled` and the slot key reading `slot`,
on a powered-on slot with the hand switch on position 1. -/
def led_pass (sled slot : String) : LedIn :=
  { identify_sled := { ret := 0, val := sled }, identify_slot := { ret := 0, val := slot },
    power := Rd.ok 1, hand_sw := Rd.ok 1, set_led_steady := 0, set_led_on := 0,
    set_led_off := 0 }

/-- A LED pass for slot 1 with no identify key set, the hand switch on slot 1 and the power
state read as `power`; every call succeeds. -/
def led_selected_pass (power : Nat) : LedIn :=
  { identify_sled := { ret := 0, val := "off" }, identify_slot := { ret := 0, val := "off" },
    power := Rd.ok power, hand_sw := Rd.ok 1, set_led_steady := 0, set_led_on := 0,
    set_led_off := 0 }

/-- A LED pass with no identify key set, the hand switch on BMC (5) and the power state read
as `power`. -/
def led_bmc_pass (power : Nat) : LedIn :=
  { identify_sled := { ret := 0, val := "off" }, identify_slot := { ret := 0, val := "off" },
    power := Rd.ok power, hand_sw := Rd.ok 5, set_led_steady := 0, set_led_on := 0,
    set_led_off := 0 }

/-- How many key/value writes the `len` passes from pass `a` on make. -/
def kv_count (T : Int) (ins : Nat → HbIn) (a : Nat) : Nat → Nat
  | 0 => 0
  | len + 1 => kv_count T ins a len + (kv_writes (hb_trace T ins (a + len))).length

/-- Heartbeat readings with a wall clock that runs ahead of the persisted timestamp from
the first pass: `2000 + n` at pass `n`, uptime `n`, not a cold boot. -/
def hb_clock_steady (n : Nat) : HbIn :=
  { now := 2000 + n, por := 0, mono := n, now_store := 2000 + n }

/-- Heartbeat readings with a wall clock close to the end of the range of `int`:
`2147480000 + n` at pass `n`, never going backwards; it passes `2^31` at pass 3648. -/
def hb_clock_late (n : Nat) : HbIn :=
  { now := 2147480000 + n, por := 0, mono := n, now_store := 2147480000 + n }

/-- Heartbeat readings with a wall clock that reads 2000 when it is validated and has been
set back to 500 by the time the timestamp is stored. -/
def hb_clock_back (_n : Nat) : HbIn :=
  { now := 2000, por := 0, mono := 0, now_store := 500 }

/-- The passes of a run of `usb_handler` entered with `prev`, each with the calls it made. -/
def usb_run (prev : Int) : List UsbIn → List (UsbIn × List Ev)
  | [] => []
  | e :: es => (e, (usb_cycle prev e).2) :: usb_run (usb_cycle prev e).1 es

/-- The position of the most recent USB mux switch that succeeded, read off the passes of a
run in order: a pass that made the call `pal_switch_usb_mux(pos)` and got 0 back makes
`pos` the most recent one; `init` when no pass did. -/
def last_ok_switch (init : Int) (h : List (UsbIn × List Ev)) : Int :=
  h.foldl (fun (acc : Int) (p : UsbIn × List Ev) =>
    match usb_switches p.2 with
    | [Ev.switch_usb_mux pos] => if p.1.usb_mux = (0 : Int) then Int.ofNat pos else acc
    | _ => acc) init

/-- A power-button pass on slot 1 (powered on) whose first release-loop read fails and whose
second reads the button released. -/
def pwr_poll_fails_once : PwrBtnIn :=
  { hand_sw := Rd.ok 1, btn := Rd.ok 1,
    poll := fun k => if k = 0 then { ret := -1, val := 0 } else Rd.ok 0,
    power := Rd.ok 1, set_power := 0 }

/-- A power-button pass on slot 1 with a press released at once and a failing power-state
read. -/
def pwr_power_read_fails : PwrBtnIn :=
  { hand_sw := Rd.ok 1, btn := Rd.ok 1, poll := fun _ => Rd.ok 0,
    power := { ret := -1, val := 0 }, set_power := 0 }

/-- A reset-button pass on slot 2 whose button is never read released. -/
def rst_press_stuck : RstBtnIn :=
  { hand_sw := Rd.ok 2, btn := Rd.ok 1, set_low := 0, poll := fun _ => Rd.ok 1, set_high := 0 }

/-- A reset-button pass with the hand switch on BMC (5) and the button pressed. -/
def rst_on_bmc : RstBtnIn :=
  { hand_sw := Rd.ok 5, btn := Rd.ok 1, set_low := 0, poll := fun _ => Rd.ok 0, set_high := 0 }

/-- A power-button pass with the hand switch on BMC (5) and the button pressed. -/
def pwr_on_bmc : PwrBtnIn :=
  { hand_sw := Rd.ok 5, btn := Rd.ok 1, poll := fun _ => Rd.ok 0, power := Rd.ok 1,
    set_power := 0 }

/-- A debug-card pass with the card present, the hand switch on slot 1 and the server of
slot 1 read absent; every call succeeds. -/
def dc_server_absent : DcIn :=
  { card := Rd.ok 1, uart_bmc := 0, hand_sw := Rd.ok 1, uart := 0, server := Rd.ok 0,
    post_enable := 0, post_last := Rd.ok 60, post_handle := 0 }

/-! ## Release loops -/

theorem pwr_btn_wait_held (poll : Nat → Rd) :
    ∀ left i, (∀ k, i ≤ k → k < i + left → ¬ released (poll k)) →
      pwr_btn_wait poll left i = (i + left, held_trace Ev.get_pwr_btn left) := by
  intro left
  induction left with
  | zero => intro i _; simp [pwr_btn_wait, held_trace]
  | succ n ih =>
    intro i h
    have h0 : ¬ released (poll i) := h i (Nat.le_refl i) (by omega)
    have hc : (poll i).ret ≠ 0 ∨ (poll i).byte ≠ 0 := by
      unfold released at h0
      by_cases hr : (poll i).ret = 0
      · exact Or.inr (fun hb => h0 ⟨hr, hb⟩)
      · exact Or.inl hr
    have hrec := ih (i + 1) (fun k hk1 hk2 => h k (by omega) (by omega))
    simp only [pwr_btn_wait, if_pos hc, hrec, held_trace]
    congr 1
    omega

theorem pwr_btn_wait_release (poll : Nat → Rd) (j : Nat) :
    ∀ left i, i ≤ j → j < i + left → (∀ k, i ≤ k → k < j → ¬ released (poll k)) →
      released (poll j) →
      pwr_btn_wait poll left i =
        (j, held_trace Ev.get_pwr_btn (j - i) ++
              [Ev.get_pwr_btn, Ev.syslog Prio.warning Msg.pwr_released]) := by
  intro left
  induction left with
  | zero => intro i h1 h2; omega
  | succ n ih =>
    intro i h1 h2 hheld hrel
    by_cases hij : i = j
    · subst hij
      have hc : ¬ ((poll i).ret ≠ 0 ∨ (poll i).byte ≠ 0) := by
        unfold released at hrel
        rintro (h | h)
        · exact h hrel.1
        · exact h hrel.2
      simp [pwr_btn_wait, if_neg hc, held_trace]
    · have h0 : ¬ released (poll i) := hheld i (Nat.le_refl i) (by omega)
      have hc : (poll i).ret ≠ 0 ∨ (poll i).byte ≠ 0 := by
        unfold released at h0
        by_cases hr : (poll i).ret = 0
        · exact Or.inr (fun hb => h0 ⟨hr, hb⟩)
        · exact Or.inl hr
      have hrec := ih (i + 1) (by omega) (by omega)
        (fun k hk1 hk2 => hheld k (by omega) hk2) hrel
      have hji : j - i = (j - (i + 1)) + 1 := by omega
      simp only [pwr_btn_wait, if_pos hc, hrec, hji, held_trace, List.cons_append]

theorem power_cmds_append (a b : List Ev) : power_cmds (a ++ b) = power_cmds a ++ power_cmds b := by
  simp [power_cmds]

theorem power_cmds_held_trace (n : Nat) : power_cmds (held_trace Ev.get_pwr_btn n) = [] := by
  induction n with
  | zero => rfl
  | succ n ih => simpa [held_trace, power_cmds] using ih

theorem mem_held_trace (ev x : Ev) (n : Nat) (h : x ∈ held_trace ev n) :
    x = ev ∨ x = Ev.msleep 100 := by
  induction n with
  | zero => simp [held_trace] at h
  | succ n ih =>
    simp only [held_trace, List.mem_cons] at h
    rcases h with h | h | h
    · exact Or.inl h
    · exact Or.inr h
    · exact ih h

/-- The trace of a pass of `pwr_btn_handler` on a selected slot with a press detected. -/
theorem pwr_btn_cycle_pressed (K : PalConsts) (e : PwrBtnIn)
    (hsw : e.hand_sw.ret = 0) (hbmc : e.hand_sw.byte ≠ K.HAND_SW_BMC)
    (hbtn : e.btn.ret = 0 ∧ e.btn.byte ≠ 0) :
    pwr_btn_cycle K e =
      [Ev.get_hand_sw, Ev.get_pwr_btn, Ev.syslog Prio.warning Msg.pwr_pressed]
        ++ (pwr_btn_wait e.poll BTN_MAX_SAMPLES 0).2
        ++ pwr_btn_act K e e.hand_sw.byte (pwr_btn_wait e.poll BTN_MAX_SAMPLES 0).1
        ++ [Ev.msleep 100] := by
  have h1 : ¬ (e.hand_sw.ret ≠ 0 ∨ e.hand_sw.byte = K.HAND_SW_BMC) := by
    rintro (h | h)
    · exact h hsw
    · exact hbmc h
  have h2 : ¬ (e.btn.ret ≠ 0 ∨ e.btn.byte = 0) := by
    rintro (h | h)
    · exact h hbtn.1
    · exact hbtn.2 h
  simp only [pwr_btn_cycle, if_neg h1, if_neg h2]

/-- The trace of a pass of `pwr_btn_handler` whose release loop ends with counter `i`:
`i` samples not released, then a released one when `i` is below the budget. -/
theorem pwr_btn_cycle_count (K : PalConsts) (e : PwrBtnIn) (i : Nat)
    (hsw : e.hand_sw.ret = 0) (hbmc : e.hand_sw.byte ≠ K.HAND_SW_BMC)
    (hbtn : e.btn.ret = 0 ∧ e.btn.byte ≠ 0)
    (hheld : ∀ k, k < i → ¬ released (e.poll k))
    (hend : i < BTN_MAX_SAMPLES → released (e.poll i)) (hle : i ≤ BTN_MAX_SAMPLES) :
    pwr_btn_cycle K e =
      [Ev.get_hand_sw, Ev.get_pwr_btn, Ev.syslog Prio.warning Msg.pwr_pressed]
        ++ held_trace Ev.get_pwr_btn i
        ++ (if i < BTN_MAX_SAMPLES then
              [Ev.get_pwr_btn, Ev.syslog Prio.warning Msg.pwr_released] else [])
        ++ pwr_btn_act K e e.hand_sw.byte i ++ [Ev.msleep 100] := by
  rw [pwr_btn_cycle_pressed K e hsw hbmc hbtn]
  by_cases hi : i < BTN_MAX_SAMPLES
  · have hw := pwr_btn_wait_release e.poll i BTN_MAX_SAMPLES 0 (Nat.zero_le i) (by omega)
      (fun k _ hk => hheld k hk) (hend hi)
    simp [hw, hi]
  · have hi2 : i = BTN_MAX_SAMPLES := by omega
    subst hi2
    have hw := pwr_btn_wait_held e.poll BTN_MAX_SAMPLES 0 (fun k _ hk => hheld k (by omega))
    simp [hw]

/-- The power commands of a pass of `pwr_btn_handler` whose button is read released at
sample `i` and whose power-state read succeeds: one command, to the selected slot. -/
theorem pwr_btn_cycle_cmds (K : PalConsts) (e : PwrBtnIn) (i : Nat)
    (hsw : e.hand_sw.ret = 0) (hbmc : e.hand_sw.byte ≠ K.HAND_SW_BMC)
    (hbtn : e.btn.ret = 0 ∧ e.btn.byte ≠ 0)
    (hheld : ∀ k, k < i → ¬ released (e.poll k)) (hrel : released (e.poll i))
    (hi : i < BTN_MAX_SAMPLES) (hpw : e.power.ret = 0) :
    power_cmds (pwr_btn_cycle K e) =
      [Ev.set_server_power e.hand_sw.byte
        (if i ≥ BTN_POWER_OFF then lnot e.power.byte
         else if e.power.byte = K.SERVER_POWER_ON then K.SERVER_GRACEFUL_SHUTDOWN % 256
         else lnot e.power.byte)] := by
  rw [pwr_btn_cycle_count K e i hsw hbmc hbtn hheld (fun _ => hrel) (Nat.le_of_lt hi)]
  have hne : i ≠ BTN_MAX_SAMPLES := Nat.ne_of_lt hi
  simp only [power_cmds_append, power_cmds_held_trace, if_pos hi, pwr_btn_act, if_neg hne,
    hpw, ne_eq, not_true_eq_false, if_false]
  by_cases h40 : i ≥ BTN_POWER_OFF
  · simp [h40, power_cmds]
  · simp [h40, power_cmds]

theorem lnot_le_one (x : Int) : lnot x = 0 ∨ lnot x = 1 := by
  unfold lnot
  by_cases h : x = 0
  · simp [h]
  · simp [h]

theorem power_ok_values (K : PalConsts) (hK : K.power_ok) :
    ((K.SERVER_POWER_OFF = 0 ∧ K.SERVER_POWER_ON = 1) ∨
      (K.SERVER_POWER_OFF = 1 ∧ K.SERVER_POWER_ON = 0)) := by
  obtain ⟨h1, h2, _, _, _⟩ := hK
  unfold lnot at h1 h2
  by_cases h : K.SERVER_POWER_OFF = 0
  · left
    simp [h] at h1
    exact ⟨h, h1⟩
  · right
    have h1' : K.SERVER_POWER_ON = 0 := by
      have : (K.SERVER_POWER_OFF : Int) ≠ 0 := by exact_mod_cast h
      simpa [this] using h1
    simp [h1'] at h2
    exact ⟨h2, h1'⟩

/-- C1. Short press. In a pass of `pwr_btn_handler` where the hand switch is read on a
position other than BMC, a press is detected, the button is read released at
release-loop sample `i < BTN_POWER_OFF` (all earlier samples not released) and the
power-state read succeeds, exactly one `pal_set_server_power` call is made, to the
selected slot; its command is `SERVER_GRACEFUL_SHUTDOWN` (and not the toggle `!power`)
when the power state read is On, and `SERVER_POWER_ON` when it is Off. -/
theorem pwr_btn_short_press (K : PalConsts) (e : PwrBtnIn) (i : Nat) (hK : K.power_ok)
    (hsw : e.hand_sw.ret = 0) (hbmc : e.hand_sw.byte ≠ K.HAND_SW_BMC)
    (hbtn : e.btn.ret = 0 ∧ e.btn.byte ≠ 0)
    (hheld : ∀ k, k < i → ¬ released (e.poll k)) (hrel : released (e.poll i))
    (hi : i < BTN_POWER_OFF) (hpw : e.power.ret = 0) :
    (∃ cmd, power_cmds (pwr_btn_cycle K e) = [Ev.set_server_power e.hand_sw.byte cmd]) ∧
    (e.power.byte = K.SERVER_POWER_ON →
      power_cmds (pwr_btn_cycle K e) =
          [Ev.set_server_power e.hand_sw.byte K.SERVER_GRACEFUL_SHUTDOWN] ∧
        K.SERVER_GRACEFUL_SHUTDOWN ≠ lnot e.power.byte ∧
        K.SERVER_GRACEFUL_SHUTDOWN ≠ K.SERVER_POWER_OFF) ∧
    (e.power.byte = K.SERVER_POWER_OFF →
      power_cmds (pwr_btn_cycle K e) =
        [Ev.set_server_power e.hand_sw.byte K.SERVER_POWER_ON]) := by
  have hi200 : i < BTN_MAX_SAMPLES := by
    unfold BTN_POWER_OFF at hi
    unfold BTN_MAX_SAMPLES
    omega
  have hcmd := pwr_btn_cycle_cmds K e i hsw hbmc hbtn hheld hrel hi200 hpw
  have h40 : ¬ (i ≥ BTN_POWER_OFF) := by omega
  rw [if_neg h40] at hcmd
  have hv := power_ok_values K hK
  obtain ⟨hon, hoff, hlt, hne1, hne2⟩ := hK
  refine ⟨⟨_, hcmd⟩, ?_, ?_⟩
  · intro hp
    rw [hcmd, if_pos hp, Nat.mod_eq_of_lt hlt]
    refine ⟨rfl, ?_, hne2⟩
    rw [hp, ← hoff]
    exact hne2
  · intro hp
    have hne : e.power.byte ≠ K.SERVER_POWER_ON := by
      rw [hp]
      rcases hv with ⟨a, b⟩ | ⟨a, b⟩ <;> omega
    rw [hcmd, if_neg hne, hp, ← hon]

/-- C2. Threshold boundary. In a pass of `pwr_btn_handler` with a press detected on a
selected slot, where the release loop ends with counter `i` (`i` samples not released, then
a released one unless `i` is the budget 200) and the power-state read succeeds, the pass
logs "Power Button Long Press" if and only if `40 ≤ i < 200`, and logs the short "Power
Button Press" if and only if `i < 40`; so `i = 40` is long and `i = 39` is short. -/
theorem pwr_btn_threshold (K : PalConsts) (e : PwrBtnIn) (i : Nat)
    (hsw : e.hand_sw.ret = 0) (hbmc : e.hand_sw.byte ≠ K.HAND_SW_BMC)
    (hbtn : e.btn.ret = 0 ∧ e.btn.byte ≠ 0)
    (hheld : ∀ k, k < i → ¬ released (e.poll k))
    (hend : i < BTN_MAX_SAMPLES → released (e.poll i)) (hle : i ≤ BTN_MAX_SAMPLES)
    (hpw : e.power.ret = 0) :
    (Ev.syslog Prio.crit (Msg.pwr_long_press e.hand_sw.byte) ∈ pwr_btn_cycle K e ↔
        40 ≤ i ∧ i < 200) ∧
    (Ev.syslog Prio.crit (Msg.pwr_press e.hand_sw.byte) ∈ pwr_btn_cycle K e ↔ i < 40) ∧
    (i = 40 → Ev.syslog Prio.crit (Msg.pwr_long_press e.hand_sw.byte) ∈ pwr_btn_cycle K e) ∧
    (i = 39 → Ev.syslog Prio.crit (Msg.pwr_press e.hand_sw.byte) ∈ pwr_btn_cycle K e) := by
  have hL : ∀ m, Ev.syslog Prio.crit m ∉ held_trace Ev.get_pwr_btn i := by
    intro m hm
    rcases mem_held_trace _ _ _ hm with h | h <;> cases h
  have key : ∀ m, (Ev.syslog Prio.crit m ∈ pwr_btn_cycle K e ↔
      Ev.syslog Prio.crit m ∈ pwr_btn_act K e e.hand_sw.byte i) := by
    intro m
    rw [pwr_btn_cycle_count K e i hsw hbmc hbtn hheld hend hle]
    by_cases hi : i < BTN_MAX_SAMPLES
    · simp [hi, hL m]
    · simp [hi, hL m]
  have hlong : Ev.syslog Prio.crit (Msg.pwr_long_press e.hand_sw.byte) ∈ pwr_btn_cycle K e ↔
      40 ≤ i ∧ i < 200 := by
    rw [key]
    unfold pwr_btn_act BTN_MAX_SAMPLES BTN_POWER_OFF
    unfold BTN_MAX_SAMPLES at hle
    by_cases h200 : i = 200
    · simp [h200]
    · by_cases h40 : i ≥ 40
      · simp [h200, hpw, h40]
        omega
      · simp [h200, hpw, h40]
  have hshort : Ev.syslog Prio.crit (Msg.pwr_press e.hand_sw.byte) ∈ pwr_btn_cycle K e ↔
      i < 40 := by
    rw [key]
    unfold pwr_btn_act BTN_MAX_SAMPLES BTN_POWER_OFF
    unfold BTN_MAX_SAMPLES at hle
    by_cases h200 : i = 200
    · simp [h200]
    · by_cases h40 : i ≥ 40
      · simp [h200, hpw, h40]
      · simp [h200, hpw, h40]
        omega
  refine ⟨hlong, hshort, ?_, ?_⟩
  · intro h
    exact hlong.mpr (by omega)
  · intro h
    exact hshort.mpr (by omega)

/-- C3. Stuck button. In a pass of `pwr_btn_handler` with a press detected on a selected
slot where none of the `BTN_MAX_SAMPLES = 200` release-loop samples reads the button
released, the pass is: the two reads and the "pressed" log, 200 times (button read, 100 ms
sleep), the "stuck" warning, the closing 100 ms sleep.  So the warning is logged, the power
state is not read and no `pal_set_server_power` call is made. -/
theorem pwr_btn_stuck (K : PalConsts) (e : PwrBtnIn)
    (hsw : e.hand_sw.ret = 0) (hbmc : e.hand_sw.byte ≠ K.HAND_SW_BMC)
    (hbtn : e.btn.ret = 0 ∧ e.btn.byte ≠ 0)
    (hstuck : ∀ k, k < BTN_MAX_SAMPLES → ¬ released (e.poll k)) :
    pwr_btn_cycle K e =
        [Ev.get_hand_sw, Ev.get_pwr_btn, Ev.syslog Prio.warning Msg.pwr_pressed]
          ++ held_trace Ev.get_pwr_btn 200
          ++ [Ev.syslog Prio.warning Msg.pwr_stuck, Ev.msleep 100] ∧
    Ev.syslog Prio.warning Msg.pwr_stuck ∈ pwr_btn_cycle K e ∧
    (∀ s, Ev.get_server_power s ∉ pwr_btn_cycle K e) ∧
    (∀ s c, Ev.set_server_power s c ∉ pwr_btn_cycle K e) ∧
    power_cmds (pwr_btn_cycle K e) = [] := by
  have hT := pwr_btn_cycle_count K e BTN_MAX_SAMPLES hsw hbmc hbtn hstuck
    (fun h => absurd h (Nat.lt_irrefl _)) (Nat.le_refl _)
  have hT2 : pwr_btn_cycle K e =
      [Ev.get_hand_sw, Ev.get_pwr_btn, Ev.syslog Prio.warning Msg.pwr_pressed]
        ++ held_trace Ev.get_pwr_btn 200
        ++ [Ev.syslog Prio.warning Msg.pwr_stuck, Ev.msleep 100] := by
    rw [hT]
    simp [pwr_btn_act, BTN_MAX_SAMPLES]
  have hH : ∀ x, x ∈ held_trace Ev.get_pwr_btn 200 → x = Ev.get_pwr_btn ∨ x = Ev.msleep 100 :=
    fun x hx => mem_held_trace _ _ _ hx
  refine ⟨hT2, ?_, ?_, ?_, ?_⟩
  · rw [hT2]; simp
  · intro s hmem
    rw [hT2] at hmem
    simp only [List.mem_append, List.mem_cons, List.mem_singleton, List.not_mem_nil,
      or_false] at hmem
    rcases hmem with ((h | h | h) | h) | (h | h)
    · cases h
    · cases h
    · cases h
    · rcases hH _ h with h | h <;> cases h
    · cases h
    · cases h
  · intro s c hmem
    rw [hT2] at hmem
    simp only [List.mem_append, List.mem_cons, List.mem_singleton, List.not_mem_nil,
      or_false] at hmem
    rcases hmem with ((h | h | h) | h) | (h | h)
    · cases h
    · cases h
    · cases h
    · rcases hH _ h with h | h <;> cases h
    · cases h
    · cases h
  · rw [hT2, power_cmds_append, power_cmds_append, power_cmds_held_trace]
    simp [power_cmds]

/-- C4. Long press. In a pass of `pwr_btn_handler` with a press detected on a selected slot,
the button read released at sample `i` with `40 ≤ i < 200` and the power-state read
succeeding, the one `pal_set_server_power` call made, to the selected slot, carries
`!power` for every value `power` read: `SERVER_POWER_OFF` when On was read,
`SERVER_POWER_ON` when Off was read, and never `SERVER_GRACEFUL_SHUTDOWN`. -/
theorem pwr_btn_long_press (K : PalConsts) (e : PwrBtnIn) (i : Nat) (hK : K.power_ok)
    (hsw : e.hand_sw.ret = 0) (hbmc : e.hand_sw.byte ≠ K.HAND_SW_BMC)
    (hbtn : e.btn.ret = 0 ∧ e.btn.byte ≠ 0)
    (hheld : ∀ k, k < i → ¬ released (e.poll k)) (hrel : released (e.poll i))
    (hlo : BTN_POWER_OFF ≤ i) (hi : i < BTN_MAX_SAMPLES) (hpw : e.power.ret = 0) :
    power_cmds (pwr_btn_cycle K e) =
        [Ev.set_server_power e.hand_sw.byte (lnot e.power.byte)] ∧
    (e.power.byte = K.SERVER_POWER_ON → lnot e.power.byte = K.SERVER_POWER_OFF) ∧
    (e.power.byte = K.SERVER_POWER_OFF → lnot e.power.byte = K.SERVER_POWER_ON) ∧
    lnot e.power.byte ≠ K.SERVER_GRACEFUL_SHUTDOWN ∧
    (∀ s, Ev.set_server_power s K.SERVER_GRACEFUL_SHUTDOWN ∉ power_cmds (pwr_btn_cycle K e)) := by
  have hcmd := pwr_btn_cycle_cmds K e i hsw hbmc hbtn hheld hrel hi hpw
  rw [if_pos hlo] at hcmd
  have hv := power_ok_values K hK
  obtain ⟨hon, hoff, hlt, hne1, hne2⟩ := hK
  have hgs : lnot e.power.byte ≠ K.SERVER_GRACEFUL_SHUTDOWN := by
    intro h
    rcases lnot_le_one e.power.byte with h0 | h0 <;>
      rcases hv with ⟨a, b⟩ | ⟨a, b⟩ <;> omega
  refine ⟨hcmd, ?_, ?_, hgs, ?_⟩
  · intro hp
    rw [hp, ← hoff]
  · intro hp
    rw [hp, ← hon]
  · intro s hmem
    rw [hcmd] at hmem
    simp only [List.mem_singleton, Ev.set_server_power.injEq] at hmem
    exact hgs hmem.2.symm

theorem pwr_press_for_held (n power k : Nat) (hk : k < n) :
    ¬ released ((pwr_press_for n power).poll k) := by
  simp [pwr_press_for, hk, released, Rd.ok, Rd.byte]

theorem pwr_press_for_released (n power : Nat) : released ((pwr_press_for n power).poll n) := by
  simp [pwr_press_for, released, Rd.ok, Rd.byte]

/-- Instance of C1: a press on slot 1 released at sample 3 while the slot is On issues the
single command graceful shutdown (3) to slot 1. -/
theorem pwr_btn_short_press_witness :
    power_cmds (pwr_btn_cycle yosemite (pwr_press_for 3 1)) = [Ev.set_server_power 1 3] :=
  ((pwr_btn_short_press yosemite (pwr_press_for 3 1) 3 (by decide) rfl (by decide) (by decide)
      (fun k hk => pwr_press_for_held 3 1 k hk) (pwr_press_for_released 3 1) (by decide)
      rfl).2.1 rfl).1

/-- Instance of C2: a press on slot 1 released at sample 40 logs the long press. -/
theorem pwr_btn_threshold_witness :
    Ev.syslog Prio.crit (Msg.pwr_long_press 1) ∈ pwr_btn_cycle yosemite (pwr_press_for 40 1) :=
  (pwr_btn_threshold yosemite (pwr_press_for 40 1) 40 rfl (by decide) (by decide)
      (fun k hk => pwr_press_for_held 40 1 k hk) (fun _ => pwr_press_for_released 40 1)
      (by decide) rfl).2.2.1 rfl

/-- Instance of C3: a press on slot 1 never read released issues no power command. -/
theorem pwr_btn_stuck_witness : power_cmds (pwr_btn_cycle yosemite pwr_press_stuck) = [] :=
  (pwr_btn_stuck yosemite pwr_press_stuck rfl (by decide) (by decide)
      (fun _ _ => by simp [pwr_press_stuck, released, Rd.ok, Rd.byte])).2.2.2.2

/-- Instance of C4: a press on slot 1 released at sample 40 while the slot is On issues the
single command power off (0) to slot 1. -/
theorem pwr_btn_long_press_witness :
    power_cmds (pwr_btn_cycle yosemite (pwr_press_for 40 1)) = [Ev.set_server_power 1 0] :=
  (pwr_btn_long_press yosemite (pwr_press_for 40 1) 40 (by decide) rfl (by decide) (by decide)
      (fun k hk => pwr_press_for_held 40 1 k hk) (pwr_press_for_released 40 1) (by decide)
      (by decide) rfl).1

/-! ## Hand switch thread -/

theorem usb_prev_append (prev : Int) (xs ys : List UsbIn) :
    usb_prev prev (xs ++ ys) = usb_prev (usb_prev prev xs) ys := by
  simp [usb_prev, List.foldl_append]

theorem usb_prev_cons (prev : Int) (x : UsbIn) (xs : List UsbIn) :
    usb_prev prev (x :: xs) = usb_prev (usb_cycle prev x).1 xs := by
  simp [usb_prev]

/-- Passes whose hand-switch read fails leave `prev` as it is. -/
theorem usb_prev_failed_reads (prev : Int) (mid : List UsbIn)
    (hmid : ∀ m ∈ mid, m.hand_sw.ret ≠ 0) : usb_prev prev mid = prev := by
  induction mid generalizing prev with
  | nil => rfl
  | cons m ms ih =>
    have hm : m.hand_sw.ret ≠ 0 := hmid m (List.mem_cons_self m ms)
    rw [usb_prev_cons]
    have : (usb_cycle prev m).1 = prev := by simp [usb_cycle, hm]
    rw [this]
    exact ih prev (fun x hx => hmid x (List.mem_cons_of_mem m hx))

/-- A pass of `usb_handler` switches the mux exactly when its read succeeds with a position
other than `prev`. -/
theorem usb_cycle_switches (prev : Int) (e : UsbIn) :
    usb_switches (usb_cycle prev e).2 =
      if e.hand_sw.ret = 0 ∧ (e.hand_sw.byte : Int) ≠ prev then
        [Ev.switch_usb_mux e.hand_sw.byte] else [] := by
  unfold usb_cycle
  by_cases h1 : e.hand_sw.ret = 0
  · by_cases h2 : (e.hand_sw.byte : Int) = prev
    · simp [h1, h2, usb_switches]
    · by_cases h3 : e.usb_mux = 0
      · simp [h1, h2, h3, usb_switches]
      · simp [h1, h2, h3, usb_switches]
  · simp [h1, usb_switches]

/-- After a pass whose read succeeds and whose mux switch, if made, succeeds, `prev` is the
position read. -/
theorem usb_cycle_prev (prev : Int) (e : UsbIn) (h1 : e.hand_sw.ret = 0)
    (h2 : usb_switches (usb_cycle prev e).2 = [] ∨ e.usb_mux = 0) :
    (usb_cycle prev e).1 = e.hand_sw.byte := by
  rw [usb_cycle_switches] at h2
  unfold usb_cycle
  by_cases h3 : (e.hand_sw.byte : Int) = prev
  · simp [h1, h3]
  · rcases h2 with h2 | h2
    · simp [h1, h3] at h2
    · simp [h1, h3, h2]

/-- C5, as stated, fails: the first pass reads position 1 and its mux switch fails; the next
pass reads position 1 again (two consecutive successful reads with equal values) and
issues the mux switch again. -/
theorem usb_repeat_read_switches_again :
    (usb_pass 1 (-1)).hand_sw.ret = 0 ∧ (usb_pass 1 0).hand_sw.ret = 0 ∧
    (usb_pass 1 (-1)).hand_sw.byte = (usb_pass 1 0).hand_sw.byte ∧
    usb_switches (usb_cycle (usb_prev usb_init [usb_pass 1 (-1)]) (usb_pass 1 0)).2 =
      [Ev.switch_usb_mux 1] := by
  decide

/-- C5, amended. In every run of `usb_handler` (any passes `pre` from thread start), for two
consecutive successful hand-switch reads `a`, `b` with equal values (any passes between
them have a failed read), if the pass of the first read made no mux switch or its mux
switch succeeded, the pass of the second read makes no `pal_switch_usb_mux` call. -/
theorem usb_no_switch_on_repeat (pre mid : List UsbIn) (a b : UsbIn)
    (ha : a.hand_sw.ret = 0) (_hb : b.hand_sw.ret = 0)
    (heq : a.hand_sw.byte = b.hand_sw.byte)
    (hmid : ∀ m ∈ mid, m.hand_sw.ret ≠ 0)
    (hok : usb_switches (usb_cycle (usb_prev usb_init pre) a).2 = [] ∨ a.usb_mux = 0) :
    usb_switches (usb_cycle (usb_prev usb_init (pre ++ a :: mid)) b).2 = [] ∧
    (∀ p, Ev.switch_usb_mux p ∉ (usb_cycle (usb_prev usb_init (pre ++ a :: mid)) b).2) := by
  have hprev : usb_prev usb_init (pre ++ a :: mid) = b.hand_sw.byte := by
    rw [usb_prev_append, usb_prev_cons, usb_prev_failed_reads _ mid hmid,
      usb_cycle_prev _ a ha hok, heq]
  have hnone : usb_switches (usb_cycle (usb_prev usb_init (pre ++ a :: mid)) b).2 = [] := by
    rw [usb_cycle_switches, hprev]
    simp
  refine ⟨hnone, ?_⟩
  intro p hp
  have : Ev.switch_usb_mux p ∈ usb_switches (usb_cycle (usb_prev usb_init (pre ++ a :: mid)) b).2 := by
    unfold usb_switches
    exact List.mem_filter.mpr ⟨hp, rfl⟩
  rw [hnone] at this
  exact List.not_mem_nil _ this

/-- Instance of C5 amended: position 1 read, switched with success, one failed read, then
position 1 read again: no switch in the last pass. -/
theorem usb_no_switch_on_repeat_witness :
    usb_switches (usb_cycle (usb_prev usb_init
      ([usb_pass 2 0] ++ usb_pass 1 0 :: [{ hand_sw := { ret := -1, val := 0 }, usb_mux := 0 }]))
      (usb_pass 1 0)).2 = [] :=
  (usb_no_switch_on_repeat [usb_pass 2 0] [{ hand_sw := { ret := -1, val := 0 }, usb_mux := 0 }]
    (usb_pass 1 0) (usb_pass 1 0) rfl rfl rfl (by decide) (Or.inr rfl)).1

/-! ## Debug card thread -/

/-- What the condition `pos == prev_pos && pos != HAND_SW_BMC & !prev` computes: it holds
exactly when the position is the recorded one, is not BMC, and `prev` is 0, that is, the
card was absent at the last completed pass. -/
theorem skip_cond_iff (K : PalConsts) (pos prev_pos : Nat) (prev : Int) :
    skip_cond K pos prev_pos prev = true ↔
      pos = prev_pos ∧ pos ≠ K.HAND_SW_BMC ∧ prev = 0 := by
  unfold skip_cond c_ne lnot
  by_cases h1 : pos = prev_pos
  · subst h1
    by_cases h2 : pos = K.HAND_SW_BMC <;> by_cases h3 : prev = 0 <;> simp [h2, h3]
  · simp [h1]

theorem uart_switches_append (a b : List Ev) :
    uart_switches (a ++ b) = uart_switches a ++ uart_switches b := by
  simp [uart_switches]

theorem uart_switches_out (s : DcState) (t : List Ev) :
    uart_switches (debug_card_out s t).2 = uart_switches t := by
  unfold debug_card_out
  rw [uart_switches_append]
  by_cases h : s.prsnt ≠ 0 <;> simp [h, uart_switches]

theorem uart_switches_done (s : DcState) (curr : Int) (t : List Ev) :
    uart_switches (debug_card_done s curr t).2 = uart_switches t := by
  unfold debug_card_done
  exact uart_switches_out _ t

theorem uart_switches_display (e : DcIn) (s : DcState) (curr : Int) (t : List Ev) :
    uart_switches (display_post e s curr t).2 = uart_switches t := by
  unfold display_post
  by_cases h1 : e.post_last.ret ≠ 0
  · simp only [if_pos h1, uart_switches_out, uart_switches_append]
    simp [uart_switches]
  · by_cases h2 : e.post_handle ≠ 0
    · simp only [if_neg h1, if_pos h2, uart_switches_out, uart_switches_append]
      simp [uart_switches]
    · simp only [if_neg h1, if_neg h2, uart_switches_done, uart_switches_append]
      simp [uart_switches]

/-- The UART mux switches of the block `if (curr) { ... }` when the hand-switch read
succeeds: none when the skip condition holds, one to the position read otherwise. -/
theorem uart_switches_present (K : PalConsts) (e : DcIn) (s : DcState) (curr : Int)
    (t : List Ev) (hsw : e.hand_sw.ret = 0) :
    uart_switches (debug_card_present K e s curr t).2 =
      uart_switches t ++
        (if skip_cond K e.hand_sw.byte s.prev_pos s.prev = true then []
         else [Ev.switch_uart_mux e.hand_sw.byte]) := by
  unfold debug_card_present
  have h0 : ¬ (e.hand_sw.ret ≠ 0) := fun h => h hsw
  dsimp only
  rw [if_neg h0]
  split_ifs
  all_goals
    first
      | rw [uart_switches_display]
      | rw [uart_switches_done]
      | rw [uart_switches_out]
  all_goals simp [uart_switches]

/-- In a pass of `debug_card_handler` that reads the card present and reads the hand switch
with success, the UART mux is left alone (the pass goes to `display_post`) exactly when
the position is the recorded one, is not BMC, and the card was absent (`prev == 0`) at the
last completed pass. -/
theorem debug_card_skip_iff (K : PalConsts) (s : DcState) (e : DcIn)
    (hc : e.card.ret = 0) (hp : e.card.byte ≠ 0) (hsw : e.hand_sw.ret = 0) :
    uart_switches (debug_card_cycle K s e).2 = [] ↔
      (e.hand_sw.byte = s.prev_pos ∧ e.hand_sw.byte ≠ K.HAND_SW_BMC ∧ s.prev = 0) := by
  have hcurr : ((e.card.byte : Nat) : Int) ≠ 0 := by exact_mod_cast hp
  have h0 : ¬ (e.card.ret ≠ 0) := fun h => h hc
  rw [← skip_cond_iff]
  unfold debug_card_cycle
  simp only [if_neg h0, hcurr, if_false, if_true, ne_eq, not_false_eq_true]
  by_cases hpv : ((e.card.byte : Nat) : Int) = s.prev
  · simp only [hpv, not_true_eq_false, if_false]
    rw [uart_switches_present K e _ _ _ hsw]
    by_cases hsk : skip_cond K e.hand_sw.byte s.prev_pos s.prev = true <;>
      simp [hsk, uart_switches]
  · simp only [hpv, not_false_eq_true, if_true]
    rw [uart_switches_present K e _ _ _ hsw]
    by_cases hsk : skip_cond K e.hand_sw.byte s.prev_pos s.prev = true <;>
      simp [hsk, uart_switches]

/-- C6, the code at the failing input.  Card inserted with the hand switch on slot 1,
card extracted (the UART mux is forced to BMC), card inserted again with the hand switch
still on slot 1: the third pass, the first read after the insertion, goes straight to the
POST code and leaves the UART mux on BMC.  And with the card staying in and the position
unchanged (second run), the second pass does not skip: it switches the UART mux, checks
the slot and enables POST again. -/
theorem debug_card_skip_on_reinsert :
    (debug_card_run yosemite (debug_card_init 0 0 0) [dc_present 1, dc_absent, dc_present 1]).2 =
      [[Ev.is_debug_card_prsnt, Ev.syslog Prio.warning Msg.debug_card_insertion, Ev.get_hand_sw,
        Ev.switch_uart_mux 1, Ev.is_server_prsnt 1, Ev.post_enable 1, Ev.post_get_last 1,
        Ev.post_handle 1 60, Ev.msleep 500],
       [Ev.is_debug_card_prsnt, Ev.syslog Prio.warning Msg.debug_card_extraction,
        Ev.switch_uart_mux 5, Ev.sleep 1],
       [Ev.is_debug_card_prsnt, Ev.syslog Prio.warning Msg.debug_card_insertion, Ev.get_hand_sw,
        Ev.post_get_last 1, Ev.post_handle 1 60, Ev.msleep 500]] ∧
    (debug_card_run yosemite (debug_card_init 0 0 0) [dc_present 1, dc_present 1]).2 =
      [[Ev.is_debug_card_prsnt, Ev.syslog Prio.warning Msg.debug_card_insertion, Ev.get_hand_sw,
        Ev.switch_uart_mux 1, Ev.is_server_prsnt 1, Ev.post_enable 1, Ev.post_get_last 1,
        Ev.post_handle 1 60, Ev.msleep 500],
       [Ev.is_debug_card_prsnt, Ev.get_hand_sw,
        Ev.switch_uart_mux 1, Ev.is_server_prsnt 1, Ev.post_enable 1, Ev.post_get_last 1,
        Ev.post_handle 1 60, Ev.msleep 500]] := by
  decide

/-! ## Heartbeat thread -/

theorem sled_on_logs_append (a b : List Ev) :
    sled_on_logs (a ++ b) = sled_on_logs a ++ sled_on_logs b := by
  simp [sled_on_logs]

theorem kv_writes_append (a b : List Ev) : kv_writes (a ++ b) = kv_writes a ++ kv_writes b := by
  simp [kv_writes]

theorem hb_store_sled_on (s : HbState) (e : HbIn) (t : List Ev) :
    sled_on_logs (hb_store s e t).2 = sled_on_logs t := by
  unfold hb_store
  split_ifs
  · rw [sled_on_logs_append]
    simp [sled_on_logs]
  · rfl

theorem hb_store_fields (s : HbState) (e : HbIn) (t : List Ev) :
    (hb_store s e t).1.time_init = s.time_init ∧
    (hb_store s e t).1.time_sled_off = s.time_sled_off := by
  unfold hb_store
  split_ifs <;> exact ⟨rfl, rfl⟩

/-- A pass with the clock not validated and a reading below the persisted timestamp:
the locals stay as they are, and the pass only blinks the LED and reads the clock. -/
theorem hb_cycle_deferred (s : HbState) (e : HbIn) (h0 : s.time_init = 0)
    (hlt : e.now < s.time_sled_off) :
    hb_cycle s e =
      (s, [Ev.set_hb_led 1, Ev.msleep 500, Ev.set_hb_led 0, Ev.msleep 500, Ev.clock_realtime]) := by
  simp [hb_cycle, h0, hlt]

/-- A pass with the clock not validated and a reading at or above the persisted timestamp:
the clock is marked valid, and the power-on instant is logged when `pal_is_bmc_por()`
is nonzero. -/
theorem hb_cycle_validates (s : HbState) (e : HbIn) (h0 : s.time_init = 0)
    (hge : ¬ e.now < s.time_sled_off) :
    (hb_cycle s e).1.time_init = 1 ∧
    sled_on_logs (hb_cycle s e).2 =
      if e.por ≠ 0 then [Ev.syslog Prio.crit (Msg.sled_on (e.now - e.mono))] else [] := by
  unfold hb_cycle
  simp only [h0, if_true, if_neg hge]
  by_cases hp : e.por ≠ 0
  · simp only [if_pos hp, hb_store_sled_on, (hb_store_fields _ _ _).1, sled_on_logs_append]
    simp [sled_on_logs]
  · simp only [if_neg hp, hb_store_sled_on, (hb_store_fields _ _ _).1, sled_on_logs_append]
    simp [sled_on_logs]

/-- A pass with the clock already validated keeps it validated and logs no power-on. -/
theorem hb_cycle_valid (s : HbState) (e : HbIn) (h1 : s.time_init ≠ 0) :
    (hb_cycle s e).1.time_init = s.time_init ∧ sled_on_logs (hb_cycle s e).2 = [] := by
  unfold hb_cycle
  simp only [if_neg h1, hb_store_sled_on, (hb_store_fields _ _ _).1]
  simp [sled_on_logs]

theorem hb_cycle_sled_off (s : HbState) (e : HbIn) :
    (hb_cycle s e).1.time_sled_off = s.time_sled_off := by
  unfold hb_cycle
  dsimp only
  split_ifs <;> first | rfl | exact (hb_store_fields _ _ _).2

theorem hb_state_sled_off (T : Int) (ins : Nat → HbIn) (n : Nat) :
    (hb_state T ins n).time_sled_off = T := by
  induction n with
  | zero => rfl
  | succ n ih => simp only [hb_state, hb_cycle_sled_off, ih]

/-- While every reading so far is below the persisted timestamp the locals are the
initial ones. -/
theorem hb_state_deferred (T : Int) (ins : Nat → HbIn) (n : Nat)
    (hlt : ∀ k, k < n → (ins k).now < T) : hb_state T ins n = hb_init T := by
  induction n with
  | zero => rfl
  | succ n ih =>
    have hs := ih (fun k hk => hlt k (Nat.lt_succ_of_lt hk))
    have hn : (ins n).now < (hb_state T ins n).time_sled_off := by
      rw [hb_state_sled_off]
      exact hlt n (Nat.lt_succ_self n)
    have h0 : (hb_state T ins n).time_init = 0 := by rw [hs]; rfl
    simp only [hb_state, hb_cycle_deferred _ _ h0 hn]
    exact hs

/-- Once the clock is validated it stays validated. -/
theorem hb_state_valid (T : Int) (ins : Nat → HbIn) (k : Nat)
    (hlt : ∀ j, j < k → (ins j).now < T) (hk : (ins k).now ≥ T) :
    ∀ n, k < n → (hb_state T ins n).time_init = 1 := by
  intro n hn
  induction n with
  | zero => omega
  | succ n ih =>
    by_cases hkn : k = n
    · subst hkn
      have h0 : (hb_state T ins k).time_init = 0 := by rw [hb_state_deferred T ins k hlt]; rfl
      have hge : ¬ (ins k).now < (hb_state T ins k).time_sled_off := by
        rw [hb_state_sled_off]
        omega
      exact (hb_cycle_validates _ _ h0 hge).1
    · have h1 := ih (by omega)
      have hne : (hb_state T ins n).time_init ≠ 0 := by rw [h1]; decide
      simp only [hb_state]
      rw [(hb_cycle_valid _ _ hne).1, h1]

/-- C7. Deferred validation. For a persisted timestamp `T` and any readings, if the
wall-clock readings of passes `0 .. n-1` of the loop of `hb_handler` are all below `T`,
then at pass `n` the locals are still the initial ones (`time_init = 0`), and each of those
passes only blinks the heartbeat LED and reads the clock: no "Powered ON" event and no
key/value write.  If the reading of pass `n` is at least `T`, that pass marks the clock
valid and, when `pal_is_bmc_por()` is nonzero, logs the power-on event. -/
theorem hb_deferred_validation (T : Int) (ins : Nat → HbIn) (n : Nat)
    (hlt : ∀ k, k < n → (ins k).now < T) :
    hb_state T ins n = hb_init T ∧ (hb_state T ins n).time_init = 0 ∧
    (∀ k, k < n →
      hb_trace T ins k =
          [Ev.set_hb_led 1, Ev.msleep 500, Ev.set_hb_led 0, Ev.msleep 500, Ev.clock_realtime] ∧
        sled_on_logs (hb_trace T ins k) = [] ∧ kv_writes (hb_trace T ins k) = []) ∧
    ((ins n).now ≥ T →
      (hb_state T ins (n + 1)).time_init = 1 ∧
      ((ins n).por ≠ 0 →
        sled_on_logs (hb_trace T ins n) =
          [Ev.syslog Prio.crit (Msg.sled_on ((ins n).now - (ins n).mono))])) := by
  have hs := hb_state_deferred T ins n hlt
  refine ⟨hs, by rw [hs]; rfl, ?_, ?_⟩
  · intro k hk
    have hsk := hb_state_deferred T ins k (fun j hj => hlt j (Nat.lt_trans hj hk))
    have h0 : (hb_state T ins k).time_init = 0 := by rw [hsk]; rfl
    have hn : (ins k).now < (hb_state T ins k).time_sled_off := by
      rw [hb_state_sled_off]
      exact hlt k hk
    have ht : hb_trace T ins k =
        [Ev.set_hb_led 1, Ev.msleep 500, Ev.set_hb_led 0, Ev.msleep 500, Ev.clock_realtime] := by
      simp only [hb_trace, hb_cycle_deferred _ _ h0 hn]
    refine ⟨ht, ?_, ?_⟩
    · rw [ht]; rfl
    · rw [ht]; rfl
  · intro hge
    have h0 : (hb_state T ins n).time_init = 0 := by rw [hs]; rfl
    have hnl : ¬ (ins n).now < (hb_state T ins n).time_sled_off := by
      rw [hb_state_sled_off]
      omega
    have hv := hb_cycle_validates _ _ h0 hnl
    refine ⟨hv.1, ?_⟩
    intro hp
    simp only [hb_trace, hv.2, if_pos hp]

theorem hb_readings_below (por : Int) (k : Nat) (hk : k < 3) : (hb_readings por k).now < 1003 := by
  simp only [hb_readings]
  omega

/-- Instance of C7: persisted 1003, clock at `1000 + n`: passes 0 to 2 defer, pass 3
validates and, on a cold boot, logs the power-on instant `1003 - 10 = 993`. -/
theorem hb_deferred_validation_witness :
    (hb_state 1003 (hb_readings 1) 3).time_init = 0 ∧
    (hb_state 1003 (hb_readings 1) 4).time_init = 1 ∧
    sled_on_logs (hb_trace 1003 (hb_readings 1) 3) = [Ev.syslog Prio.crit (Msg.sled_on 993)] :=
  ⟨(hb_deferred_validation 1003 (hb_readings 1) 3 (hb_readings_below 1)).2.1,
   ((hb_deferred_validation 1003 (hb_readings 1) 3 (hb_readings_below 1)).2.2.2
      (by decide)).1,
   ((hb_deferred_validation 1003 (hb_readings 1) 3 (hb_readings_below 1)).2.2.2
      (by decide)).2 (by decide)⟩

/-- The power-on events of any pass of the loop of `hb_handler`: one, carrying wall-clock
seconds minus uptime seconds, when the pass validates the clock and `pal_is_bmc_por()` is
nonzero; none otherwise. -/
theorem hb_cycle_sled_on (s : HbState) (e : HbIn) :
    sled_on_logs (hb_cycle s e).2 =
      if s.time_init = 0 ∧ ¬ e.now < s.time_sled_off ∧ e.por ≠ 0 then
        [Ev.syslog Prio.crit (Msg.sled_on (e.now - e.mono))] else [] := by
  by_cases h0 : s.time_init = 0
  · by_cases hlt : e.now < s.time_sled_off
    · rw [hb_cycle_deferred s e h0 hlt]
      simp [hlt, sled_on_logs]
    · rw [(hb_cycle_validates s e h0 hlt).2]
      by_cases hp : e.por ≠ 0
      · simp [h0, hlt, hp]
      · simp [hp]
  · rw [(hb_cycle_valid s e h0).2]
    simp [h0]

/-- In any run the power-on event is logged at most once, and not at all while the clock
is not validated. -/
theorem sled_on_count_le (T : Int) (ins : Nat → HbIn) (N : Nat) :
    sled_on_count T ins N ≤ 1 ∧ ((hb_state T ins N).time_init = 0 → sled_on_count T ins N = 0) := by
  induction N with
  | zero => exact ⟨Nat.zero_le 1, fun _ => rfl⟩
  | succ N ih =>
    by_cases h0 : (hb_state T ins N).time_init = 0
    · have hc := ih.2 h0
      by_cases hlt : (ins N).now < (hb_state T ins N).time_sled_off
      · have hcy := hb_cycle_deferred (hb_state T ins N) (ins N) h0 hlt
        have hl : sled_on_logs (hb_trace T ins N) = [] := by
          simp only [hb_trace, hcy]
          rfl
        have hz : sled_on_count T ins (N + 1) = 0 := by
          simp only [sled_on_count, hc, hl, List.length_nil]
        rw [hz]
        exact ⟨Nat.zero_le 1, fun _ => rfl⟩
      · have hv := hb_cycle_validates (hb_state T ins N) (ins N) h0 hlt
        have hlen : (sled_on_logs (hb_trace T ins N)).length ≤ 1 := by
          simp only [hb_trace, hv.2]
          split_ifs <;> simp
        refine ⟨by simp only [sled_on_count, hc]; omega, ?_⟩
        intro h
        simp only [hb_state, hv.1] at h
        omega
    · have hv := hb_cycle_valid (hb_state T ins N) (ins N) h0
      have hl : sled_on_logs (hb_trace T ins N) = [] := by simp only [hb_trace, hv.2]
      refine ⟨by simp only [sled_on_count, hl, List.length_nil]; exact ih.1, ?_⟩
      intro h
      simp only [hb_state, hv.1] at h
      exact absurd h h0

/-- C8. Power-on instant. In any run of `hb_handler` the "Powered ON" event is logged at
most once.  If pass `k` of the loop is the one that validates the clock (readings below `T`
before it, at least `T` at it), then the event is logged in pass `k` and in no other pass
exactly when `pal_is_bmc_por()` is nonzero there, with the instant `now - mono` of the two
clock readings of pass `k`; so the first `N > k` passes log it exactly once on a cold boot.
When `pal_is_bmc_por()` reads 0 no pass ever logs it. -/
theorem hb_power_on_once (T : Int) (ins : Nat → HbIn) :
    (∀ N, sled_on_count T ins N ≤ 1) ∧
    (∀ k, (∀ j, j < k → (ins j).now < T) → (ins k).now ≥ T →
      (∀ n, sled_on_logs (hb_trace T ins n) =
        if n = k ∧ (ins k).por ≠ 0 then
          [Ev.syslog Prio.crit (Msg.sled_on ((ins k).now - (ins k).mono))] else []) ∧
      (∀ N, sled_on_count T ins N = if k < N ∧ (ins k).por ≠ 0 then 1 else 0)) ∧
    ((∀ j, (ins j).por = 0) → ∀ n, sled_on_logs (hb_trace T ins n) = []) := by
  refine ⟨fun N => (sled_on_count_le T ins N).1, ?_, ?_⟩
  · intro k hlt hk
    have hper : ∀ n, sled_on_logs (hb_trace T ins n) =
        if n = k ∧ (ins k).por ≠ 0 then
          [Ev.syslog Prio.crit (Msg.sled_on ((ins k).now - (ins k).mono))] else [] := by
      intro n
      simp only [hb_trace, hb_cycle_sled_on, hb_state_sled_off]
      rcases Nat.lt_trichotomy n k with h | h | h
      · have : (ins n).now < T := hlt n h
        have hne : n ≠ k := Nat.ne_of_lt h
        simp [this, hne]
      · subst h
        have h0 : (hb_state T ins n).time_init = 0 := by
          rw [hb_state_deferred T ins n hlt]; rfl
        have hge : ¬ (ins n).now < T := by omega
        simp [h0, hge]
      · have h1 := hb_state_valid T ins k hlt hk n h
        have hne : n ≠ k := Nat.ne_of_gt h
        simp [h1, hne]
    refine ⟨hper, ?_⟩
    intro N
    induction N with
    | zero => simp [sled_on_count]
    | succ N ih =>
      simp only [sled_on_count, ih, hper N]
      by_cases hp : (ins k).por ≠ 0
      · rcases Nat.lt_trichotomy N k with h | h | h
        · have h1 : ¬ k < N := by omega
          have h2 : N ≠ k := by omega
          have h3 : ¬ k < N + 1 := by omega
          simp [h1, h2, h3]
        · subst h
          simp [hp]
        · have h2 : N ≠ k := by omega
          have h3 : k < N + 1 := by omega
          simp [h, h2, h3, hp]
      · simp [hp]
  · intro hpor n
    simp only [hb_trace, hb_cycle_sled_on, hpor n]
    simp

/-- Instance of C8: persisted 1003, clock at `1000 + n`, uptime `7 + n`, cold boot: the first
ten passes log the event once, in pass 3, with instant 993. -/
theorem hb_power_on_once_witness :
    sled_on_count 1003 (hb_readings 1) 10 = 1 ∧
    sled_on_logs (hb_trace 1003 (hb_readings 1) 3) = [Ev.syslog Prio.crit (Msg.sled_on 993)] :=
  ⟨((hb_power_on_once 1003 (hb_readings 1)).2.1 3 (hb_readings_below 1) (by decide)).2 10,
   ((hb_power_on_once 1003 (hb_readings 1)).2.1 3 (hb_readings_below 1) (by decide)).1 3⟩

/-! ## Reset button thread -/

theorem rst_btn_wait_release (pos : Nat) (poll : Nat → Rd) (j : Nat) :
    ∀ left i, i ≤ j → j < i + left → (∀ k, i ≤ k → k < j → ¬ released (poll k)) →
      released (poll j) →
      rst_btn_wait pos poll left i =
        held_trace Ev.get_rst_btn (j - i) ++
          [Ev.get_rst_btn, Ev.syslog Prio.warning Msg.rst_released,
           Ev.syslog Prio.crit (Msg.rst_fru pos), Ev.set_rst_btn pos 1] := by
  intro left
  induction left with
  | zero => intro i h1 h2; omega
  | succ n ih =>
    intro i h1 h2 hheld hrel
    by_cases hij : i = j
    · subst hij
      have hc : ¬ ((poll i).ret ≠ 0 ∨ (poll i).byte ≠ 0) := by
        unfold released at hrel
        rintro (h | h)
        · exact h hrel.1
        · exact h hrel.2
      simp [rst_btn_wait, if_neg hc, held_trace]
    · have h0 : ¬ released (poll i) := hheld i (Nat.le_refl i) (by omega)
      have hc : (poll i).ret ≠ 0 ∨ (poll i).byte ≠ 0 := by
        unfold released at h0
        by_cases hr : (poll i).ret = 0
        · exact Or.inr (fun hb => h0 ⟨hr, hb⟩)
        · exact Or.inl hr
      have hrec := ih (i + 1) (by omega) (by omega)
        (fun k hk1 hk2 => hheld k (by omega) hk2) hrel
      have hji : j - i = (j - (i + 1)) + 1 := by omega
      simp only [rst_btn_wait, if_pos hc, hrec, hji, held_trace, List.cons_append]

theorem rst_writes_append (a b : List Ev) : rst_writes (a ++ b) = rst_writes a ++ rst_writes b := by
  simp [rst_writes]

theorem rst_writes_held_trace (n : Nat) : rst_writes (held_trace Ev.get_rst_btn n) = [] := by
  induction n with
  | zero => rfl
  | succ n ih => simpa [held_trace, rst_writes] using ih

theorem hand_sw_reads_append (a b : List Ev) :
    hand_sw_reads (a ++ b) = hand_sw_reads a ++ hand_sw_reads b := by
  simp [hand_sw_reads]

theorem hand_sw_reads_held_trace (n : Nat) :
    hand_sw_reads (held_trace Ev.get_rst_btn n) = [] := by
  induction n with
  | zero => rfl
  | succ n ih => simpa [held_trace, hand_sw_reads] using ih

/-- C9. Complete pulse. In a pass of `rst_btn_handler` where the hand switch is read on a
position `p` other than BMC, the reset button is read pressed, the write driving the reset
line low succeeds and some release-loop sample among the first `BTN_MAX_SAMPLES = 200` reads
the button released, the `pal_set_rst_btn` calls of the pass are exactly `(p, 0)` then
`(p, 1)`; the hand switch is read once, at the start of the pass, and the pass is: reads,
"pressed" log, line low, `i` times (button read, 100 ms sleep) for the first released
sample `i`, the released read, two logs, line high, 100 ms sleep. -/
theorem rst_btn_complete_pulse (K : PalConsts) (e : RstBtnIn)
    (hsw : e.hand_sw.ret = 0) (hbmc : e.hand_sw.byte ≠ K.HAND_SW_BMC)
    (hbtn : e.btn.ret = 0 ∧ e.btn.byte ≠ 0) (hlow : e.set_low = 0)
    (hrel : ∃ j, j < BTN_MAX_SAMPLES ∧ released (e.poll j)) :
    rst_writes (rst_btn_cycle K e) =
        [Ev.set_rst_btn e.hand_sw.byte 0, Ev.set_rst_btn e.hand_sw.byte 1] ∧
    hand_sw_reads (rst_btn_cycle K e) = [Ev.get_hand_sw] ∧
    (∃ i, i < BTN_MAX_SAMPLES ∧ released (e.poll i) ∧ (∀ k, k < i → ¬ released (e.poll k)) ∧
      rst_btn_cycle K e =
        [Ev.get_hand_sw, Ev.get_rst_btn, Ev.syslog Prio.warning Msg.rst_pressed,
         Ev.set_rst_btn e.hand_sw.byte 0]
          ++ held_trace Ev.get_rst_btn i
          ++ [Ev.get_rst_btn, Ev.syslog Prio.warning Msg.rst_released,
              Ev.syslog Prio.crit (Msg.rst_fru e.hand_sw.byte),
              Ev.set_rst_btn e.hand_sw.byte 1, Ev.msleep 100]) := by
  have hex : ∃ j, released (e.poll j) := by
    obtain ⟨j, _, hj⟩ := hrel
    exact ⟨j, hj⟩
  have hfirst : released (e.poll (Nat.find hex)) := Nat.find_spec hex
  have hmin : ∀ k, k < Nat.find hex → ¬ released (e.poll k) := fun k hk => Nat.find_min hex hk
  have hlt : Nat.find hex < BTN_MAX_SAMPLES := by
    obtain ⟨j, hj, hjr⟩ := hrel
    exact Nat.lt_of_le_of_lt (Nat.find_min' hex hjr) hj
  have h1 : ¬ (e.hand_sw.ret ≠ 0 ∨ e.hand_sw.byte = K.HAND_SW_BMC) := by
    rintro (h | h)
    · exact h hsw
    · exact hbmc h
  have h2 : ¬ (e.btn.ret ≠ 0 ∨ e.btn.byte = 0) := by
    rintro (h | h)
    · exact h hbtn.1
    · exact hbtn.2 h
  have h3 : ¬ (e.set_low ≠ 0) := fun h => h hlow
  have hw := rst_btn_wait_release e.hand_sw.byte e.poll (Nat.find hex) BTN_MAX_SAMPLES 0
    (Nat.zero_le _) (by omega) (fun k _ hk => hmin k hk) hfirst
  have hT : rst_btn_cycle K e =
      [Ev.get_hand_sw, Ev.get_rst_btn, Ev.syslog Prio.warning Msg.rst_pressed,
       Ev.set_rst_btn e.hand_sw.byte 0]
        ++ held_trace Ev.get_rst_btn (Nat.find hex)
        ++ [Ev.get_rst_btn, Ev.syslog Prio.warning Msg.rst_released,
            Ev.syslog Prio.crit (Msg.rst_fru e.hand_sw.byte),
            Ev.set_rst_btn e.hand_sw.byte 1, Ev.msleep 100] := by
    simp only [rst_btn_cycle, if_neg h1, if_neg h2, if_neg h3, hw, Nat.sub_zero]
    simp
  refine ⟨?_, ?_, Nat.find hex, hlt, hfirst, hmin, hT⟩
  · rw [hT, rst_writes_append, rst_writes_append, rst_writes_held_trace]
    simp [rst_writes]
  · rw [hT, hand_sw_reads_append, hand_sw_reads_append, hand_sw_reads_held_trace]
    simp [hand_sw_reads]

/-- Instance of C9: reset pressed on slot 2 and released at sample 5: the reset line of
slot 2 is driven low, then high. -/
theorem rst_btn_complete_pulse_witness :
    rst_writes (rst_btn_cycle yosemite (rst_press_for 5)) =
      [Ev.set_rst_btn 2 0, Ev.set_rst_btn 2 1] :=
  (rst_btn_complete_pulse yosemite (rst_press_for 5) rfl (by decide) (by decide) rfl
    ⟨5, by decide, by decide⟩).1

/-! ## Slot LED thread -/

/-- C10, as stated, fails: with key `identify_sled` read as "on", the pass for slot 1 makes
a `pal_set_led` call on the slot's power/status LED: `pal_set_led(1, 0)`. -/
theorem led_identify_sets_power_led :
    ((led_pass "on" "off").identify_sled.ret = 0 ∧ (led_pass "on" "off").identify_sled.val = "on") ∧
    Ev.set_led 1 0 ∈ led_cycle yosemite 1 (led_pass "on" "off") ∧
    led_writes (led_cycle yosemite 1 (led_pass "on" "off")) ≠ [] := by
  decide

/-- C10, amended. In a pass of the loop of `led_handler` for `slot` in which key
`identify_sled` or key `identify_slot<slot>` is read with success and value "on", the pass
is: the key read(s), `pal_set_led(slot, 0)` turning the power/status LED off, identify LED
write, 200 ms sleep, identify LED write, 200 ms sleep.  It reads neither the power state
nor the hand switch, and its only `pal_set_led` call is the one turning the LED off. -/
theorem led_identify (K : PalConsts) (slot : Nat) (e : LedIn)
    (h : (e.identify_sled.ret = 0 ∧ e.identify_sled.val = "on") ∨
         (e.identify_slot.ret = 0 ∧ e.identify_slot.val = "on")) :
    led_cycle K slot e =
        (if kv_on e.identify_sled then [Ev.get_key_value Key.identify_sled]
         else [Ev.get_key_value Key.identify_sled, Ev.get_key_value (Key.identify_slot slot)])
          ++ [Ev.set_led slot 0, Ev.set_id_led slot 0, Ev.msleep 200, Ev.set_id_led slot 1,
              Ev.msleep 200] ∧
    (∀ p, Ev.get_server_power p ∉ led_cycle K slot e) ∧
    Ev.get_hand_sw ∉ led_cycle K slot e ∧
    led_writes (led_cycle K slot e) = [Ev.set_led slot 0] := by
  have hT : led_cycle K slot e =
      (if kv_on e.identify_sled then [Ev.get_key_value Key.identify_sled]
       else [Ev.get_key_value Key.identify_sled, Ev.get_key_value (Key.identify_slot slot)])
        ++ [Ev.set_led slot 0, Ev.set_id_led slot 0, Ev.msleep 200, Ev.set_id_led slot 1,
            Ev.msleep 200] := by
    unfold led_cycle
    by_cases hs : kv_on e.identify_sled = true
    · simp [hs]
    · have hslot : kv_on e.identify_slot = true := by
        rcases h with h | h
        · exact absurd (by simp [kv_on, h.1, h.2]) hs
        · simp [kv_on, h.1, h.2]
      simp [hs, hslot]
  refine ⟨hT, ?_, ?_, ?_⟩
  · intro p
    rw [hT]
    split_ifs <;> simp
  · rw [hT]
    split_ifs <;> simp
  · rw [hT]
    split_ifs <;> simp [led_writes]

/-- Instance of C10 amended: chassis key not "on", slot key "on", slot 1. -/
theorem led_identify_witness :
    led_cycle yosemite 1 (led_pass "off" "on") =
      [Ev.get_key_value Key.identify_sled, Ev.get_key_value (Key.identify_slot 1),
       Ev.set_led 1 0, Ev.set_id_led 1 0, Ev.msleep 200, Ev.set_id_led 1 1, Ev.msleep 200] :=
  (led_identify yosemite 1 (led_pass "off" "on") (Or.inr ⟨rfl, rfl⟩)).1

/-- A pass of `led_handler` with neither identify key "on": both keys are read, the identify
LED is switched off, and the power-state part follows. -/
theorem led_cycle_not_ident (K : PalConsts) (slot : Nat) (e : LedIn)
    (hs : kv_on e.identify_sled = false) (hl : kv_on e.identify_slot = false) :
    led_cycle K slot e =
      [Ev.get_key_value Key.identify_sled, Ev.get_key_value (Key.identify_slot slot),
       Ev.set_id_led slot 1] ++ led_power K slot e := by
  simp [led_cycle, hs, hl]

/-- The pass of `led_handler` on the slot the hand switch selects, all calls succeeding:
LED on, `led_on_time`, LED off, `led_off_time`, and then the `msleep(100)` of the label
`led_handler_out` the blink falls into. -/
theorem led_selected_trace (K : PalConsts) (slot : Nat) (e : LedIn)
    (hs : kv_on e.identify_sled = false) (hl : kv_on e.identify_slot = false)
    (hp : e.power.ret = 0) (hh : e.hand_sw.ret = 0) (hbmc : e.hand_sw.byte ≠ K.HAND_SW_BMC)
    (hsel : e.hand_sw.byte = slot) (hon : e.set_led_on = 0) (hoff : e.set_led_off = 0) :
    led_cycle K slot e =
      [Ev.get_key_value Key.identify_sled, Ev.get_key_value (Key.identify_slot slot),
       Ev.set_id_led slot 1, Ev.get_server_power slot, Ev.get_hand_sw,
       Ev.set_led slot 1, Ev.msleep (if e.power.byte ≠ 0 then 900 else 100),
       Ev.set_led slot 0, Ev.msleep (if e.power.byte ≠ 0 then 100 else 900),
       Ev.msleep 100] := by
  subst hsel
  rw [led_cycle_not_ident K _ e hs hl]
  simp [led_power, hp, hh, hbmc, hon, hoff]

/-- C11, the code at the failing input.  Slot 1 selected, no identify key set, every call
succeeding.  Powered on: LED on, 900 ms, LED off, then 100 ms and the 100 ms of
`led_handler_out`, 200 ms in all before the pass ends.  Powered off: LED on, 100 ms, LED
off, then 900 ms and 100 ms, 1000 ms in all. -/
theorem led_selected_blink_tail :
    led_cycle yosemite 1 (led_selected_pass 1) =
      [Ev.get_key_value Key.identify_sled, Ev.get_key_value (Key.identify_slot 1),
       Ev.set_id_led 1 1, Ev.get_server_power 1, Ev.get_hand_sw,
       Ev.set_led 1 1, Ev.msleep 900, Ev.set_led 1 0, Ev.msleep 100, Ev.msleep 100] ∧
    led_cycle yosemite 1 (led_selected_pass 0) =
      [Ev.get_key_value Key.identify_sled, Ev.get_key_value (Key.identify_slot 1),
       Ev.set_id_led 1 1, Ev.get_server_power 1, Ev.get_hand_sw,
       Ev.set_led 1 1, Ev.msleep 100, Ev.set_led 1 0, Ev.msleep 900, Ev.msleep 100] := by
  decide

/-- C12. BMC selected. In a pass of the loop of `led_handler` for `slot` with neither identify
key "on", the power-state and hand-switch reads succeeding and the hand switch on BMC, the
pass is: key reads, identify LED off, the two reads, `pal_set_led(slot, 0)`, 500 ms,
`pal_set_led(slot, 1)`, 500 ms.  The power state read does not occur in it: the pass is the
same for every power state. -/
theorem led_bmc_blink (K : PalConsts) (slot : Nat) (e : LedIn)
    (hs : kv_on e.identify_sled = false) (hl : kv_on e.identify_slot = false)
    (hp : e.power.ret = 0) (hh : e.hand_sw.ret = 0) (hbmc : e.hand_sw.byte = K.HAND_SW_BMC) :
    led_cycle K slot e =
      [Ev.get_key_value Key.identify_sled, Ev.get_key_value (Key.identify_slot slot),
       Ev.set_id_led slot 1, Ev.get_server_power slot, Ev.get_hand_sw,
       Ev.set_led slot 0, Ev.msleep 500, Ev.set_led slot 1, Ev.msleep 500] ∧
    (∀ pw, led_cycle K slot { e with power := Rd.ok pw } = led_cycle K slot e) := by
  have key : ∀ e' : LedIn, kv_on e'.identify_sled = false → kv_on e'.identify_slot = false →
      e'.power.ret = 0 → e'.hand_sw.ret = 0 → e'.hand_sw.byte = K.HAND_SW_BMC →
      led_cycle K slot e' =
        [Ev.get_key_value Key.identify_sled, Ev.get_key_value (Key.identify_slot slot),
         Ev.set_id_led slot 1, Ev.get_server_power slot, Ev.get_hand_sw,
         Ev.set_led slot 0, Ev.msleep 500, Ev.set_led slot 1, Ev.msleep 500] := by
    intro e' h1 h2 h3 h4 h5
    rw [led_cycle_not_ident K slot e' h1 h2]
    simp [led_power, h3, h4, h5]
  refine ⟨key e hs hl hp hh hbmc, ?_⟩
  intro pw
  rw [key e hs hl hp hh hbmc]
  exact key _ hs hl rfl hh hbmc

/-- Instance of C12: slot 2, hand switch on BMC, slot powered on. -/
theorem led_bmc_blink_witness :
    led_cycle yosemite 2 (led_bmc_pass 1) =
      [Ev.get_key_value Key.identify_sled, Ev.get_key_value (Key.identify_slot 2),
       Ev.set_id_led 2 1, Ev.get_server_power 2, Ev.get_hand_sw,
       Ev.set_led 2 0, Ev.msleep 500, Ev.set_led 2 1, Ev.msleep 500] :=
  (led_bmc_blink yosemite 2 (led_bmc_pass 1) (by decide) (by decide) rfl rfl (by decide)).1

/-! ## Heartbeat thread: the stored timestamp -/

theorem hb_timestamp_count_eq : (HB_TIMESTAMP_COUNT : Int) = 3600 := by
  unfold HB_TIMESTAMP_COUNT
  norm_num

theorem hb_store_count (s : HbState) (e : HbIn) (t : List Ev) :
    (hb_store s e t).1.count = (if s.count = 3600 then 0 else s.count + 1) ∧
    kv_writes (hb_store s e t).2 =
      kv_writes t ++
        (if s.count = 3600 then [Ev.set_key_value Key.timestamp_sled (fmt_d e.now_store)]
         else []) := by
  unfold hb_store
  rw [hb_timestamp_count_eq]
  by_cases h : s.count = 3600
  · simp only [if_pos h, kv_writes_append, true_and]
    simp [kv_writes]
  · simp only [if_neg h, List.append_nil, and_self]

/-- A pass of the loop of `hb_handler` that does not stop at the `continue` of the
validation block counts: when `count` is 3600 it stores the clock reading and resets
`count`, otherwise it increments `count`. -/
theorem hb_cycle_counted (s : HbState) (e : HbIn)
    (h : ¬ (s.time_init = 0 ∧ e.now < s.time_sled_off)) :
    (hb_cycle s e).1.count = (if s.count = 3600 then 0 else s.count + 1) ∧
    kv_writes (hb_cycle s e).2 =
      (if s.count = 3600 then [Ev.set_key_value Key.timestamp_sled (fmt_d e.now_store)]
       else []) := by
  unfold hb_cycle
  by_cases h0 : s.time_init = 0
  · have hlt : ¬ e.now < s.time_sled_off := fun hl => h ⟨h0, hl⟩
    simp only [if_pos h0, if_neg hlt]
    by_cases hp : e.por ≠ 0
    · simp only [if_pos hp, hb_store_count, kv_writes_append]
      simp [kv_writes]
    · simp only [if_neg hp, hb_store_count, kv_writes_append]
      simp [kv_writes]
  · simp only [if_neg h0, hb_store_count]
    simp [kv_writes]

/-- A pass that stops at the `continue` of the validation block writes nothing and leaves
`count` as it is. -/
theorem hb_cycle_skipped (s : HbState) (e : HbIn)
    (h : s.time_init = 0 ∧ e.now < s.time_sled_off) :
    (hb_cycle s e).1.count = s.count ∧ kv_writes (hb_cycle s e).2 = [] := by
  rw [hb_cycle_deferred s e h.1 h.2]
  exact ⟨rfl, rfl⟩

/-- After the pass `k` that validates the clock, `count` runs through `0 .. 3600`: at the
start of pass `k + m` it is `m % 3601`, and pass `k + m` stores the timestamp exactly when
`m % 3601 = 3600`. -/
theorem hb_store_period (T : Int) (ins : Nat → HbIn) (k : Nat)
    (hlt : ∀ j, j < k → (ins j).now < T) (hk : (ins k).now ≥ T) (m : Nat) :
    (hb_state T ins (k + m)).count = ((m % 3601 : Nat) : Int) ∧
    kv_writes (hb_trace T ins (k + m)) =
      (if m % 3601 = 3600 then
         [Ev.set_key_value Key.timestamp_sled (fmt_d (ins (k + m)).now_store)]
       else []) := by
  have hcounted : ∀ m, ¬ ((hb_state T ins (k + m)).time_init = 0 ∧
      (ins (k + m)).now < (hb_state T ins (k + m)).time_sled_off) := by
    intro m ⟨h0, hl⟩
    rcases Nat.eq_zero_or_pos m with hm | hm
    · subst hm
      rw [hb_state_sled_off] at hl
      simp only [Nat.add_zero] at hl
      omega
    · have := hb_state_valid T ins k hlt hk (k + m) (by omega)
      omega
  have hcount : ∀ m, (hb_state T ins (k + m)).count = ((m % 3601 : Nat) : Int) := by
    intro m
    induction m with
    | zero =>
      rw [Nat.add_zero, hb_state_deferred T ins k hlt]
      rfl
    | succ m ih =>
      have hc := (hb_cycle_counted _ _ (hcounted m)).1
      have hst : hb_state T ins (k + (m + 1)) =
          (hb_cycle (hb_state T ins (k + m)) (ins (k + m))).1 := rfl
      rw [hst, hc, ih]
      split_ifs with h <;> omega
  refine ⟨hcount m, ?_⟩
  have hw := (hb_cycle_counted _ _ (hcounted m)).2
  simp only [hb_trace, hw, hcount m]
  by_cases h : m % 3601 = 3600
  · have h2 : ((m % 3601 : Nat) : Int) = 3600 := by omega
    rw [if_pos h2, if_pos h]
  · have h2 : ¬ (((m % 3601 : Nat) : Int) = 3600) := by omega
    rw [if_neg h2, if_neg h]

/-- C13, the code at the failing input.  With the clock valid from the first pass every
pass is counted: the 3600th counted pass (pass 3599) stores nothing, the first store is in
the 3601st (pass 3600), and the next one 3601 passes later (nothing in pass 7200, a store
in pass 7201). -/
theorem hb_first_store_at_3601 :
    kv_writes (hb_trace 1003 hb_clock_steady 3599) = [] ∧
    kv_writes (hb_trace 1003 hb_clock_steady 3600) =
      [Ev.set_key_value Key.timestamp_sled 5600] ∧
    kv_writes (hb_trace 1003 hb_clock_steady 7200) = [] ∧
    kv_writes (hb_trace 1003 hb_clock_steady 7201) =
      [Ev.set_key_value Key.timestamp_sled 9201] := by
  have h0 : ∀ j, j < 0 → (hb_clock_steady j).now < 1003 := fun j hj => absurd hj (Nat.not_lt_zero j)
  have hk : (hb_clock_steady 0).now ≥ 1003 := by decide
  have key := fun m => (hb_store_period 1003 hb_clock_steady 0 h0 hk m).2
  simp only [Nat.zero_add] at key
  refine ⟨?_, ?_, ?_, ?_⟩
  · rw [key 3599]; rfl
  · rw [key 3600]; rfl
  · rw [key 7200]; rfl
  · rw [key 7201]; rfl

/-- What any pass of the loop of `hb_handler` does to `count` and to the store: `count`
stays within `0 .. 3600` and grows by at most one; a pass writes at most once, only when
`count` is 3600, and leaves `count` at 0 when it does. -/
theorem hb_pass_count (T : Int) (ins : Nat → HbIn) (n : Nat) :
    0 ≤ (hb_state T ins n).count ∧ (hb_state T ins n).count ≤ 3600 ∧
    (hb_state T ins (n + 1)).count ≤ (hb_state T ins n).count + 1 ∧
    (kv_writes (hb_trace T ins n)).length ≤ 1 ∧
    (kv_writes (hb_trace T ins n) ≠ [] →
      (hb_state T ins n).count = 3600 ∧ (hb_state T ins (n + 1)).count = 0) := by
  have hb : 0 ≤ (hb_state T ins n).count ∧ (hb_state T ins n).count ≤ 3600 := by
    induction n with
    | zero =>
      have h0 : (hb_state T ins 0).count = 0 := rfl
      omega
    | succ n ih =>
      have hst : hb_state T ins (n + 1) = (hb_cycle (hb_state T ins n) (ins n)).1 := rfl
      by_cases hd : (hb_state T ins n).time_init = 0 ∧
          (ins n).now < (hb_state T ins n).time_sled_off
      · rw [hst, (hb_cycle_skipped _ _ hd).1]
        exact ih
      · rw [hst, (hb_cycle_counted _ _ hd).1]
        split_ifs <;> omega
  have hst : hb_state T ins (n + 1) = (hb_cycle (hb_state T ins n) (ins n)).1 := rfl
  refine ⟨hb.1, hb.2, ?_, ?_, ?_⟩
  · by_cases hd : (hb_state T ins n).time_init = 0 ∧
        (ins n).now < (hb_state T ins n).time_sled_off
    · rw [hst, (hb_cycle_skipped _ _ hd).1]
      omega
    · rw [hst, (hb_cycle_counted _ _ hd).1]
      split_ifs <;> omega
  · by_cases hd : (hb_state T ins n).time_init = 0 ∧
        (ins n).now < (hb_state T ins n).time_sled_off
    · simp only [hb_trace, (hb_cycle_skipped _ _ hd).2, List.length_nil]
      omega
    · simp only [hb_trace, (hb_cycle_counted _ _ hd).2]
      split_ifs <;> simp
  · intro hne
    by_cases hd : (hb_state T ins n).time_init = 0 ∧
        (ins n).now < (hb_state T ins n).time_sled_off
    · simp only [hb_trace, (hb_cycle_skipped _ _ hd).2] at hne
      exact absurd rfl hne
    · simp only [hb_trace, (hb_cycle_counted _ _ hd).2] at hne
      by_cases hc : (hb_state T ins n).count = 3600
      · refine ⟨hc, ?_⟩
        rw [hst, (hb_cycle_counted _ _ hd).1, if_pos hc]
      · rw [if_neg hc] at hne
        exact absurd rfl hne

theorem hb_count_growth (T : Int) (ins : Nat → HbIn) (n j : Nat) :
    (hb_state T ins (n + j)).count ≤ (hb_state T ins n).count + j := by
  induction j with
  | zero => simp
  | succ j ih =>
    have h := (hb_pass_count T ins (n + j)).2.2.1
    have e : n + (j + 1) = n + j + 1 := rfl
    rw [e]
    push_cast
    omega

/-- After a pass that stores the timestamp, none of the next 3600 passes stores it. -/
theorem hb_store_gap (T : Int) (ins : Nat → HbIn) (n j : Nat)
    (hw : kv_writes (hb_trace T ins n) ≠ []) (hj : j < 3600) :
    kv_writes (hb_trace T ins (n + 1 + j)) = [] := by
  by_contra hne
  have h1 := ((hb_pass_count T ins n).2.2.2.2 hw).2
  have h2 := ((hb_pass_count T ins (n + 1 + j)).2.2.2.2 hne).1
  have h3 := hb_count_growth T ins (n + 1) j
  omega

theorem kv_count_zero (T : Int) (ins : Nat → HbIn) (a len : Nat)
    (h : ∀ j, j < len → kv_writes (hb_trace T ins (a + j)) = []) :
    kv_count T ins a len = 0 := by
  induction len with
  | zero => rfl
  | succ len ih =>
    simp only [kv_count, ih (fun j hj => h j (Nat.lt_succ_of_lt hj)),
      h len (Nat.lt_succ_self len), List.length_nil]

theorem kv_count_window (T : Int) (ins : Nat → HbIn) (a len : Nat) (hlen : len ≤ 3601) :
    kv_count T ins a len ≤ 1 := by
  induction len with
  | zero => exact Nat.zero_le 1
  | succ len ih =>
    by_cases hw : kv_writes (hb_trace T ins (a + len)) = []
    · simp only [kv_count, hw, List.length_nil, Nat.add_zero]
      exact ih (by omega)
    · have hnone : ∀ j, j < len → kv_writes (hb_trace T ins (a + j)) = [] := by
        intro j hj
        by_contra hwj
        have hgap := hb_store_gap T ins (a + j) (len - j - 1) hwj (by omega)
        have e : a + j + 1 + (len - j - 1) = a + len := by omega
        rw [e] at hgap
        exact hw hgap
      have hz := kv_count_zero T ins a len hnone
      have h1 := (hb_pass_count T ins (a + len)).2.2.2.1
      simp only [kv_count, hz]
      omega

/-- C14. Persistence rate limit. In every run of `hb_handler` (any persisted timestamp, any
readings) and for every window of 3600 consecutive passes of its loop, starting at any
pass `a`, key `timestamp_sled` is written at most once in the window. -/
theorem hb_store_rate_limit (T : Int) (ins : Nat → HbIn) (a : Nat) :
    kv_count T ins a 3600 ≤ 1 :=
  kv_count_window T ins a 3600 (by decide)

/-- The key/value writes of a pass are its `timestamp_sled` stores. -/
theorem mem_kv_writes (T : Int) (ins : Nat → HbIn) (n : Nat) (v : Int)
    (h : Ev.set_key_value Key.timestamp_sled v ∈ hb_trace T ins n) :
    Ev.set_key_value Key.timestamp_sled v ∈ kv_writes (hb_trace T ins n) := by
  unfold kv_writes
  exact List.mem_filter.mpr ⟨h, rfl⟩

/-- A pass that stores the timestamp stores what `%d` prints of the clock reading of its
store block, and some pass up to it has read a wall clock at or above the persisted
timestamp. -/
theorem hb_store_value (T : Int) (ins : Nat → HbIn) (n : Nat) (v : Int)
    (h : Ev.set_key_value Key.timestamp_sled v ∈ hb_trace T ins n) :
    v = fmt_d (ins n).now_store ∧ ∃ k, k ≤ n ∧ (ins k).now ≥ T := by
  have hm := mem_kv_writes T ins n v h
  by_cases hd : (hb_state T ins n).time_init = 0 ∧
      (ins n).now < (hb_state T ins n).time_sled_off
  · simp only [hb_trace, (hb_cycle_skipped _ _ hd).2, List.not_mem_nil] at hm
  · simp only [hb_trace, (hb_cycle_counted _ _ hd).2] at hm
    constructor
    · split_ifs at hm
      · simpa using hm
      · simp at hm
    · by_contra hno
      apply hd
      have hall : ∀ k, k < n + 1 → (ins k).now < T := by
        intro k hk
        by_contra hge
        exact hno ⟨k, by omega, by omega⟩
      have hs := hb_state_deferred T ins n (fun k hk => hall k (by omega))
      rw [hs]
      exact ⟨rfl, hall n (by omega)⟩

/-- C19, as stated, fails: persisted timestamp 1003, the wall clock reads 2000 at the first
pass (the clock is marked valid) and 500 when the timestamp is stored in pass 3600: the
value written, 500, is below the persisted 1003. -/
theorem hb_store_below_persisted :
    (hb_clock_back 0).now ≥ 1003 ∧
    kv_writes (hb_trace 1003 hb_clock_back 3600) = [Ev.set_key_value Key.timestamp_sled 500] ∧
    (500 : Int) < 1003 := by
  have h0 : ∀ j, j < 0 → (hb_clock_back j).now < 1003 := fun j hj => absurd hj (Nat.not_lt_zero j)
  have hk : (hb_clock_back 0).now ≥ 1003 := by decide
  have key := (hb_store_period 1003 hb_clock_back 0 h0 hk 3600).2
  simp only [Nat.zero_add] at key
  refine ⟨hk, ?_, by decide⟩
  rw [key]
  rfl

/-- What `%d` prints of a value in the range of `int` is the value. -/
theorem fmt_d_of_range (x : Int) (h : -2147483648 ≤ x ∧ x < 2147483648) : fmt_d x = x := by
  unfold fmt_d
  omega

/-- The store at the end of the range of `int`: persisted timestamp 1003, the wall clock at
`2147480000 + n` in pass `n`, never going backwards.  Pass 3600 stores 2147483600; pass
7201 reads 2147487201, above `2^31 - 1`, and `%d` stores -2147480095, a value below the
persisted timestamp and below the value stored before. -/
theorem hb_store_wraps_past_int_max :
    kv_writes (hb_trace 1003 hb_clock_late 3600) =
      [Ev.set_key_value Key.timestamp_sled 2147483600] ∧
    kv_writes (hb_trace 1003 hb_clock_late 7201) =
      [Ev.set_key_value Key.timestamp_sled (-2147480095)] := by
  have h0 : ∀ j, j < 0 → (hb_clock_late j).now < 1003 := fun j hj => absurd hj (Nat.not_lt_zero j)
  have hk : (hb_clock_late 0).now ≥ 1003 := by decide
  have key := fun m => (hb_store_period 1003 hb_clock_late 0 h0 hk m).2
  simp only [Nat.zero_add] at key
  refine ⟨?_, ?_⟩
  · rw [key 3600]; decide
  · rw [key 7201]; decide

/-- C19, amended. If the wall clock never goes backwards over the run (a store-block reading
is at least every validation-block or store-block reading of the same or an earlier
pass) and the store-block readings up to pass `n` are in the range of the `int` that `%d`
prints (`-2^31 ≤ reading < 2^31`), then every value written under `timestamp_sled` in
pass `n` is at least the persisted timestamp `T` and at least every value written in the
same or an earlier pass. -/
theorem hb_store_monotone (T : Int) (ins : Nat → HbIn)
    (hval : ∀ k n, k ≤ n → (ins k).now ≤ (ins n).now_store)
    (hmono : ∀ m n, m ≤ n → (ins m).now_store ≤ (ins n).now_store)
    (n : Nat)
    (hrange : ∀ m, m ≤ n →
      -2147483648 ≤ (ins m).now_store ∧ (ins m).now_store < 2147483648)
    (v : Int) (hv : Ev.set_key_value Key.timestamp_sled v ∈ hb_trace T ins n) :
    T ≤ v ∧
    (∀ m w, m ≤ n → Ev.set_key_value Key.timestamp_sled w ∈ hb_trace T ins m → w ≤ v) := by
  obtain ⟨hveq, k, hkn, hkT⟩ := hb_store_value T ins n v hv
  rw [fmt_d_of_range _ (hrange n (Nat.le_refl n))] at hveq
  subst hveq
  refine ⟨?_, ?_⟩
  · have := hval k n hkn
    omega
  · intro m w hmn hw
    obtain ⟨hweq, _⟩ := hb_store_value T ins m w hw
    rw [fmt_d_of_range _ (hrange m hmn)] at hweq
    subst hweq
    exact hmono m n hmn

theorem hb_clock_steady_store :
    Ev.set_key_value Key.timestamp_sled 5600 ∈ hb_trace 1003 hb_clock_steady 3600 := by
  have h0 : ∀ j, j < 0 → (hb_clock_steady j).now < 1003 :=
    fun j hj => absurd hj (Nat.not_lt_zero j)
  have hk : (hb_clock_steady 0).now ≥ 1003 := by decide
  have key := (hb_store_period 1003 hb_clock_steady 0 h0 hk 3600).2
  simp only [Nat.zero_add] at key
  have hmem : Ev.set_key_value Key.timestamp_sled 5600 ∈
      kv_writes (hb_trace 1003 hb_clock_steady 3600) := by
    rw [key]
    decide
  unfold kv_writes at hmem
  exact (List.mem_filter.mp hmem).1

/-- Instance of C19 amended: the clock reads `2000 + n` at pass `n`; the value stored in
pass 3600, 5600, is at least the persisted 1003. -/
theorem hb_store_monotone_witness :
    Ev.set_key_value Key.timestamp_sled 5600 ∈ hb_trace 1003 hb_clock_steady 3600 ∧
    (1003 : Int) ≤ 5600 :=
  ⟨hb_clock_steady_store,
   (hb_store_monotone 1003 hb_clock_steady
      (fun k n h => by simp only [hb_clock_steady]; omega)
      (fun m n h => by simp only [hb_clock_steady]; omega)
      3600 (fun m h => by simp only [hb_clock_steady]; omega)
      5600 hb_clock_steady_store).1⟩

/-! ## Power button thread: failed reads -/

theorem power_cmds_wait (poll : Nat → Rd) :
    ∀ left i, power_cmds (pwr_btn_wait poll left i).2 = [] := by
  intro left
  induction left with
  | zero => intro i; rfl
  | succ n ih =>
    intro i
    unfold pwr_btn_wait
    split_ifs
    · simpa [power_cmds] using ih (i + 1)
    · simp [power_cmds]

/-- The release loop sees of a sample only whether it reads the button released: a failed
read counts like a read of a held button. -/
theorem pwr_btn_wait_congr (poll poll' : Nat → Rd)
    (h : ∀ k, released (poll k) ↔ released (poll' k)) :
    ∀ left i, pwr_btn_wait poll left i = pwr_btn_wait poll' left i := by
  intro left
  induction left with
  | zero => intro i; rfl
  | succ n ih =>
    intro i
    have hc : ((poll i).ret ≠ 0 ∨ (poll i).byte ≠ 0) ↔
        ((poll' i).ret ≠ 0 ∨ (poll' i).byte ≠ 0) := by
      have := h i
      unfold released at this
      constructor
      · intro h1
        by_contra h2
        push_neg at h2
        have := this.mpr h2
        rcases h1 with h1 | h1
        · exact h1 this.1
        · exact h1 this.2
      · intro h1
        by_contra h2
        push_neg at h2
        have := this.mp h2
        rcases h1 with h1 | h1
        · exact h1 this.1
        · exact h1 this.2
    unfold pwr_btn_wait
    by_cases hp : (poll i).ret ≠ 0 ∨ (poll i).byte ≠ 0
    · rw [if_pos hp, if_pos (hc.mp hp), ih (i + 1)]
    · rw [if_neg hp, if_neg (fun h' => hp (hc.mpr h'))]

/-- C15, as stated, fails: on slot 1 (powered on) a press is detected, the first release-loop
read of the power button fails, the second reads the button released: the pass is not
aborted, it issues the graceful-shutdown command to slot 1. -/
theorem pwr_btn_failed_sample_not_abort :
    (pwr_poll_fails_once.poll 0).ret ≠ 0 ∧
    power_cmds (pwr_btn_cycle yosemite pwr_poll_fails_once) = [Ev.set_server_power 1 3] := by
  decide

/-- C15, amended. In a pass of `pwr_btn_handler` in which the hand-switch read, the first
power-button read (the press check) or the power-state read fails, no
`pal_set_server_power` call is made; after a failed hand-switch read the pass is the read
and `sleep(1)`, after a failed press check it is the two reads and `msleep(100)`. -/
theorem pwr_btn_read_failure (K : PalConsts) (e : PwrBtnIn)
    (h : e.hand_sw.ret ≠ 0 ∨ e.btn.ret ≠ 0 ∨ e.power.ret ≠ 0) :
    power_cmds (pwr_btn_cycle K e) = [] ∧
    (e.hand_sw.ret ≠ 0 → pwr_btn_cycle K e = [Ev.get_hand_sw, Ev.sleep 1]) ∧
    (e.hand_sw.ret = 0 → e.hand_sw.byte ≠ K.HAND_SW_BMC → e.btn.ret ≠ 0 →
      pwr_btn_cycle K e = [Ev.get_hand_sw, Ev.get_pwr_btn, Ev.msleep 100]) := by
  refine ⟨?_, ?_, ?_⟩
  · unfold pwr_btn_cycle
    by_cases h1 : e.hand_sw.ret ≠ 0 ∨ e.hand_sw.byte = K.HAND_SW_BMC
    · simp [h1, power_cmds]
    · by_cases h2 : e.btn.ret ≠ 0 ∨ e.btn.byte = 0
      · simp [h1, h2, power_cmds]
      · have hpw : e.power.ret ≠ 0 := by
          rcases h with h | h | h
          · exact absurd (Or.inl h) h1
          · exact absurd (Or.inl h) h2
          · exact h
        simp only [if_neg h1, if_neg h2, power_cmds_append, power_cmds_wait]
        unfold pwr_btn_act
        split_ifs <;> simp [power_cmds]
  · intro h1
    simp [pwr_btn_cycle, h1]
  · intro h1 h2 h3
    simp [pwr_btn_cycle, h1, h2, h3]

/-- Instance of C15 amended: a press on slot 1 released at once, the power-state read
failing: no power command. -/
theorem pwr_btn_read_failure_witness :
    power_cmds (pwr_btn_cycle yosemite pwr_power_read_fails) = [] :=
  (pwr_btn_read_failure yosemite pwr_power_read_fails (Or.inr (Or.inr (by decide)))).1

/-! ## Debug card thread: the closing sleep -/

/-- The closing sleep of a pass of `debug_card_handler` that reads the card present, switches
the UART mux to a slot and then reads that slot's server: `pal_is_server_prsnt` stores
through the same `prsnt` the closing test reads, so the pass ends with `sleep(1)` when the
server is read absent, with `msleep(500)` when the server is read present and the POST
calls succeed. -/
theorem debug_card_sleep_by_server (K : PalConsts) (s : DcState) (e : DcIn)
    (hc : e.card.ret = 0) (hp : e.card.byte ≠ 0) (hsw : e.hand_sw.ret = 0)
    (hsk : skip_cond K e.hand_sw.byte s.prev_pos s.prev = false) (hu : e.uart = 0)
    (hbmc : e.hand_sw.byte ≠ K.HAND_SW_BMC) (hsrv : e.server.ret = 0)
    (hpe : e.post_enable = 0) (hpl : e.post_last.ret = 0) (hph : e.post_handle = 0) :
    (debug_card_cycle K s e).2.getLast? =
      some (if e.server.byte ≠ 0 then Ev.msleep 500 else Ev.sleep 1) := by
  have hcurr : ((e.card.byte : Nat) : Int) ≠ 0 := by exact_mod_cast hp
  by_cases hz : e.server.byte = 0
  · by_cases hpv : ((e.card.byte : Nat) : Int) = s.prev
    · have hprev : s.prev ≠ 0 := hpv ▸ hcurr
      simp [debug_card_cycle, debug_card_present, debug_card_done, debug_card_out, hc, hprev,
        hsw, hsk, hu, hbmc, hsrv, hz, hpv]
    · simp [debug_card_cycle, debug_card_present, debug_card_done, debug_card_out, hc, hcurr,
        hsw, hsk, hu, hbmc, hsrv, hz, hpv]
  · by_cases hpv : ((e.card.byte : Nat) : Int) = s.prev
    · have hprev : s.prev ≠ 0 := hpv ▸ hcurr
      simp [debug_card_cycle, debug_card_present, display_post, debug_card_done,
        debug_card_out, hc, hprev, hsw, hsk, hu, hbmc, hsrv, hz, hpv, hpe, hpl, hph]
    · simp [debug_card_cycle, debug_card_present, display_post, debug_card_done,
        debug_card_out, hc, hcurr, hsw, hsk, hu, hbmc, hsrv, hz, hpv, hpe, hpl, hph]

/-- C16, the code at the failing input.  First pass of the thread, the debug card read
present, the hand switch on slot 1, the server of slot 1 read absent: the pass ends with
`sleep(1)`, not with `msleep(500)`. -/
theorem debug_card_present_sleeps_1s :
    dc_server_absent.card = Rd.ok 1 ∧
    (debug_card_cycle yosemite (debug_card_init 0 0 0) dc_server_absent).2 =
      [Ev.is_debug_card_prsnt, Ev.syslog Prio.warning Msg.debug_card_insertion, Ev.get_hand_sw,
       Ev.switch_uart_mux 1, Ev.is_server_prsnt 1, Ev.sleep 1] := by
  decide

/-! ## Reset button thread: stuck button, BMC bypass -/

theorem rst_btn_wait_held (pos : Nat) (poll : Nat → Rd) :
    ∀ left i, (∀ k, i ≤ k → k < i + left → ¬ released (poll k)) →
      rst_btn_wait pos poll left i =
        held_trace Ev.get_rst_btn left ++
          (if i + left = BTN_MAX_SAMPLES then [Ev.syslog Prio.warning Msg.rst_stuck] else []) := by
  intro left
  induction left with
  | zero => intro i _; simp [rst_btn_wait, held_trace]
  | succ n ih =>
    intro i h
    have h0 : ¬ released (poll i) := h i (Nat.le_refl i) (by omega)
    have hc : (poll i).ret ≠ 0 ∨ (poll i).byte ≠ 0 := by
      unfold released at h0
      by_cases hr : (poll i).ret = 0
      · exact Or.inr (fun hb => h0 ⟨hr, hb⟩)
      · exact Or.inl hr
    have hrec := ih (i + 1) (fun k hk1 hk2 => h k (by omega) (by omega))
    have e1 : i + 1 + n = i + (n + 1) := by omega
    simp only [rst_btn_wait, if_pos hc, hrec, held_trace, e1, List.cons_append]

/-- C17. Stuck button. In a pass of `rst_btn_handler` with a press detected on a selected
slot `p`, the write driving the reset line low succeeding and none of the
`BTN_MAX_SAMPLES = 200` release-loop samples reading the button released, the pass is:
reads, "pressed" log, `pal_set_rst_btn(p, 0)`, 200 times (button read, 100 ms sleep), the
"stuck" warning, 100 ms sleep.  The only reset-line write is the one driving the line low:
no `pal_set_rst_btn(p, 1)`. -/
theorem rst_btn_stuck (K : PalConsts) (e : RstBtnIn)
    (hsw : e.hand_sw.ret = 0) (hbmc : e.hand_sw.byte ≠ K.HAND_SW_BMC)
    (hbtn : e.btn.ret = 0 ∧ e.btn.byte ≠ 0) (hlow : e.set_low = 0)
    (hstuck : ∀ k, k < BTN_MAX_SAMPLES → ¬ released (e.poll k)) :
    rst_btn_cycle K e =
        [Ev.get_hand_sw, Ev.get_rst_btn, Ev.syslog Prio.warning Msg.rst_pressed,
         Ev.set_rst_btn e.hand_sw.byte 0]
          ++ held_trace Ev.get_rst_btn 200
          ++ [Ev.syslog Prio.warning Msg.rst_stuck, Ev.msleep 100] ∧
    Ev.syslog Prio.warning Msg.rst_stuck ∈ rst_btn_cycle K e ∧
    rst_writes (rst_btn_cycle K e) = [Ev.set_rst_btn e.hand_sw.byte 0] ∧
    (∀ s, Ev.set_rst_btn s 1 ∉ rst_btn_cycle K e) := by
  have h1 : ¬ (e.hand_sw.ret ≠ 0 ∨ e.hand_sw.byte = K.HAND_SW_BMC) := by
    rintro (h | h)
    · exact h hsw
    · exact hbmc h
  have h2 : ¬ (e.btn.ret ≠ 0 ∨ e.btn.byte = 0) := by
    rintro (h | h)
    · exact h hbtn.1
    · exact hbtn.2 h
  have h3 : ¬ (e.set_low ≠ 0) := fun h => h hlow
  have hw := rst_btn_wait_held e.hand_sw.byte e.poll BTN_MAX_SAMPLES 0
    (fun k _ hk => hstuck k (by omega))
  have hT : rst_btn_cycle K e =
      [Ev.get_hand_sw, Ev.get_rst_btn, Ev.syslog Prio.warning Msg.rst_pressed,
       Ev.set_rst_btn e.hand_sw.byte 0]
        ++ held_trace Ev.get_rst_btn 200
        ++ [Ev.syslog Prio.warning Msg.rst_stuck, Ev.msleep 100] := by
    simp only [rst_btn_cycle, if_neg h1, if_neg h2, if_neg h3, hw]
    simp [BTN_MAX_SAMPLES]
  have hW : rst_writes (rst_btn_cycle K e) = [Ev.set_rst_btn e.hand_sw.byte 0] := by
    rw [hT, rst_writes_append, rst_writes_append, rst_writes_held_trace]
    simp [rst_writes]
  refine ⟨hT, ?_, hW, ?_⟩
  · rw [hT]; simp
  · intro s hmem
    have hin : Ev.set_rst_btn s 1 ∈ rst_writes (rst_btn_cycle K e) := by
      unfold rst_writes
      exact List.mem_filter.mpr ⟨hmem, rfl⟩
    rw [hW] at hin
    simp at hin

/-- Instance of C17: reset pressed on slot 2 and never read released: the reset line of
slot 2 is driven low and not driven back. -/
theorem rst_btn_stuck_witness :
    rst_writes (rst_btn_cycle yosemite rst_press_stuck) = [Ev.set_rst_btn 2 0] :=
  (rst_btn_stuck yosemite rst_press_stuck rfl (by decide) (by decide) rfl
    (fun _ _ => by simp [rst_press_stuck, released, Rd.ok, Rd.byte])).2.2.1

/-- C18. BMC-selected bypass. A pass of `rst_btn_handler` and a pass of `pwr_btn_handler` in
which the hand switch is read on BMC consist of that read and `sleep(1)`, whatever the
other calls would have returned: no button read, no power-state read, no log, no
reset-line write, no power command. -/
theorem btn_bmc_bypass (K : PalConsts) (r : RstBtnIn) (p : PwrBtnIn)
    (hr : r.hand_sw.ret = 0 ∧ r.hand_sw.byte = K.HAND_SW_BMC)
    (hp : p.hand_sw.ret = 0 ∧ p.hand_sw.byte = K.HAND_SW_BMC) :
    rst_btn_cycle K r = [Ev.get_hand_sw, Ev.sleep 1] ∧
    pwr_btn_cycle K p = [Ev.get_hand_sw, Ev.sleep 1] ∧
    rst_writes (rst_btn_cycle K r) = [] ∧ power_cmds (pwr_btn_cycle K p) = [] := by
  have h1 : rst_btn_cycle K r = [Ev.get_hand_sw, Ev.sleep 1] := by
    simp [rst_btn_cycle, hr.2]
  have h2 : pwr_btn_cycle K p = [Ev.get_hand_sw, Ev.sleep 1] := by
    simp [pwr_btn_cycle, hp.2]
  refine ⟨h1, h2, ?_, ?_⟩
  · rw [h1]; rfl
  · rw [h2]; rfl

/-- Instance of C18: both buttons pressed while the hand switch is on BMC (5). -/
theorem btn_bmc_bypass_witness :
    rst_btn_cycle yosemite rst_on_bmc = [Ev.get_hand_sw, Ev.sleep 1] ∧
    pwr_btn_cycle yosemite pwr_on_bmc = [Ev.get_hand_sw, Ev.sleep 1] :=
  ⟨(btn_bmc_bypass yosemite rst_on_bmc pwr_on_bmc (by decide) (by decide)).1,
   (btn_bmc_bypass yosemite rst_on_bmc pwr_on_bmc (by decide) (by decide)).2.1⟩

/-! ## Hand switch thread: the remembered position -/

/-- The value of `prev` after a pass of `usb_handler`, told from the calls of the pass and
the result of its mux switch. -/
theorem usb_cycle_prev_of_trace (prev : Int) (e : UsbIn) :
    (usb_cycle prev e).1 =
      (match usb_switches (usb_cycle prev e).2 with
       | [Ev.switch_usb_mux pos] => if e.usb_mux = (0 : Int) then Int.ofNat pos else prev
       | _ => prev) := by
  rw [usb_cycle_switches]
  unfold usb_cycle
  by_cases h1 : e.hand_sw.ret = 0
  · by_cases h2 : (e.hand_sw.byte : Int) = prev
    · simp [h1, h2]
    · by_cases h3 : e.usb_mux = 0
      · simp [h1, h2, h3]
      · simp [h1, h2, h3]
  · simp [h1]

theorem last_ok_switch_run (es : List UsbIn) :
    ∀ prev, last_ok_switch prev (usb_run prev es) = usb_prev prev es := by
  induction es with
  | nil => intro prev; rfl
  | cons e es ih =>
    intro prev
    rw [usb_prev_cons, ← ih (usb_cycle prev e).1]
    simp only [usb_run, last_ok_switch, List.foldl_cons]
    rw [← usb_cycle_prev_of_trace prev e]

/-- Passes that read the position `pos` with a failing mux switch, or fail to read, leave a
`prev` other than `pos` as it is. -/
theorem usb_prev_failed_switches (prev : Int) (pos : Nat) (mid : List UsbIn)
    (hne : (pos : Int) ≠ prev)
    (hmid : ∀ m ∈ mid, m.hand_sw.ret ≠ 0 ∨ (m.hand_sw.byte = pos ∧ m.usb_mux ≠ 0)) :
    usb_prev prev mid = prev := by
  induction mid with
  | nil => rfl
  | cons m ms ih =>
    rw [usb_prev_cons]
    have hm := hmid m (List.mem_cons_self m ms)
    have hstep : (usb_cycle prev m).1 = prev := by
      unfold usb_cycle
      rcases hm with hm | ⟨hm1, hm2⟩
      · simp [hm]
      · by_cases h1 : m.hand_sw.ret = 0
        · have h2 : ¬ ((m.hand_sw.byte : Int) = prev) := by rw [hm1]; exact hne
          simp [h1, h2, hm2]
        · simp [h1]
    rw [hstep]
    exact ih (fun x hx => hmid x (List.mem_cons_of_mem m hx))

/-- C20. State invariant of `usb_handler`. (1) After every run from thread start, `prev` is the
position of the most recent mux switch that succeeded, `-1` if none did.  (2) A pass makes
a `pal_switch_usb_mux` call, to the position read, if and only if its hand-switch read
succeeds with a position other than `prev`.  (3) The first successful read of a run makes
the call.  (4) After a pass whose switch to the position read failed, every pass that
reads the same position makes the call again, as long as the passes in between either
failed to read or read that position and failed to switch. -/
theorem usb_prev_invariant :
    (∀ es, usb_prev usb_init es = last_ok_switch (-1) (usb_run usb_init es)) ∧
    (∀ prev e, (usb_switches (usb_cycle prev e).2 ≠ [] ↔
        (e.hand_sw.ret = 0 ∧ (e.hand_sw.byte : Int) ≠ prev)) ∧
      (usb_switches (usb_cycle prev e).2 ≠ [] →
        usb_switches (usb_cycle prev e).2 = [Ev.switch_usb_mux e.hand_sw.byte])) ∧
    (∀ pre e, (∀ m ∈ pre, m.hand_sw.ret ≠ 0) → e.hand_sw.ret = 0 →
      usb_switches (usb_cycle (usb_prev usb_init pre) e).2 =
        [Ev.switch_usb_mux e.hand_sw.byte]) ∧
    (∀ pre a mid b,
      a.hand_sw.ret = 0 →
      usb_switches (usb_cycle (usb_prev usb_init pre) a).2 = [Ev.switch_usb_mux a.hand_sw.byte] →
      a.usb_mux ≠ 0 →
      (∀ m ∈ mid, m.hand_sw.ret ≠ 0 ∨ (m.hand_sw.byte = a.hand_sw.byte ∧ m.usb_mux ≠ 0)) →
      b.hand_sw.ret = 0 → b.hand_sw.byte = a.hand_sw.byte →
      usb_switches (usb_cycle (usb_prev usb_init (pre ++ a :: mid)) b).2 =
        [Ev.switch_usb_mux b.hand_sw.byte]) := by
  refine ⟨?_, ?_, ?_, ?_⟩
  · intro es
    exact (last_ok_switch_run es usb_init).symm
  · intro prev e
    rw [usb_cycle_switches]
    by_cases h : e.hand_sw.ret = 0 ∧ (e.hand_sw.byte : Int) ≠ prev
    · simp [h]
    · simp [h]
  · intro pre e hpre he
    rw [usb_prev_failed_reads usb_init pre hpre, usb_cycle_switches]
    have hne : (e.hand_sw.byte : Int) ≠ usb_init := by
      unfold usb_init
      omega
    simp [he, hne]
  · intro pre a mid b ha hsw hfail hmid hb hba
    have hne : (a.hand_sw.byte : Int) ≠ usb_prev usb_init pre := by
      rw [usb_cycle_switches] at hsw
      by_contra heq
      simp [heq] at hsw
    have hstep : (usb_cycle (usb_prev usb_init pre) a).1 = usb_prev usb_init pre := by
      unfold usb_cycle
      simp [ha, hne, hfail]
    have hprev : usb_prev usb_init (pre ++ a :: mid) = usb_prev usb_init pre := by
      rw [usb_prev_append, usb_prev_cons, hstep]
      exact usb_prev_failed_switches _ a.hand_sw.byte mid hne hmid
    rw [hprev, usb_cycle_switches, hba]
    simp [hb, hne]

/-- Instance of C20: position 2 switched with success, then position 1 read with the switch
failing twice: `prev` is still 2, and the next read of position 1 switches again. -/
theorem usb_prev_invariant_witness :
    usb_prev usb_init [usb_pass 2 0, usb_pass 1 (-1), usb_pass 1 (-1)] = 2 ∧
    usb_switches (usb_cycle (usb_prev usb_init ([usb_pass 2 0] ++ usb_pass 1 (-1) ::
      [usb_pass 1 (-1)])) (usb_pass 1 0)).2 = [Ev.switch_usb_mux 1] :=
  ⟨(usb_prev_invariant.1 [usb_pass 2 0, usb_pass 1 (-1), usb_pass 1 (-1)]).trans (by decide),
   usb_prev_invariant.2.2.2 [usb_pass 2 0] (usb_pass 1 (-1)) [usb_pass 1 (-1)] (usb_pass 1 0)
     rfl (by decide) (by decide) (by decide) rfl rfl⟩

end FrontPaneld
